import Mathlib

/-!
# Verification of the ai-toolkit data-loading core

A shallow embedding, in Lean 4, of the bucketing, point-of-interest
cropping, augmentation-replay, mask-loading and latent-cache code of
`toolkit/dataloader_mixins.py`, together with theorems settling the
specification claims about that code.

Conventions of the embedding:
* Python integers become `ℤ`; exact-arithmetic idealization replaces IEEE
  floats, so a Python float expression `a / b` on integers becomes the
  rational `mkRat a b`.
* `int(x)` on a nonnegative float is truncation toward zero (`pyInt`).
* The global `random` stream becomes an explicit oracle `Rng` threaded
  through the functions; `random.randint(a, b)` consumes one oracle value
  and maps it into `[a, b]`.
* The two helper functions of `toolkit/buckets.py` (`get_resolution`,
  `get_bucket_for_image_size`) are not part of the sources; they are
  modelled from the specification text, as marked in their doc comments.
-/

/-- Explicit pseudo-random oracle standing for Python's global `random`
stream: an infinite sequence of draws plus a cursor. -/
structure Rng where
  seq : ℕ → ℕ
  pos : ℕ
deriving Inhabited

/-- Take one raw draw from the oracle. -/
def Rng.next (r : Rng) : ℕ × Rng :=
  (r.seq r.pos, { seq := r.seq, pos := r.pos + 1 })

/-- Python `random.randint lo hi`: one oracle draw mapped into `[lo, hi]`
(both bounds inclusive, as in Python). -/
def randint (lo hi : ℤ) (r : Rng) : ℤ × Rng :=
  ((lo + ((r.seq r.pos : ℤ)) % (hi - lo + 1)), { seq := r.seq, pos := r.pos + 1 })

/-- Python `int(·)` on a rational: truncation toward zero. -/
def pyInt (q : ℚ) : ℤ :=
  if 0 ≤ q then ⌊q⌋ else -⌊-q⌋

/-- Python float division `a / b` of two integers, idealized as the exact
rational. -/
def pydiv (a b : ℤ) : ℚ := Rat.divInt a b

/-- Modelled from the spec: `toolkit/buckets.py` (absent from the provided
sources) exposes `get_resolution(width, height)`, the pixel-budget measure
of an image: the side of the square holding the same number of pixels. -/
def get_resolution (w h : ℤ) : ℤ :=
  ((Nat.sqrt (w * h).toNat : ℤ))

/-- Round `x` down to a multiple of `d` (helper of the spec-modelled bucket
lookup). -/
def roundToMultiple (x d : ℤ) : ℤ := x - x % d

/-- Modelled from the spec: `toolkit/buckets.py` (absent from the provided
sources) exposes `get_bucket_for_image_size(width, height, resolution,
divisibility)`: the best-fit bucket resolution for the scaled size —
nearest pixel-budget match at the target resolution, rounded to a multiple
of the divisibility, preserving the aspect ratio as closely as possible. -/
def get_bucket_for_image_size (w h resolution d : ℤ) : ℤ × ℤ :=
  let side := max 1 (get_resolution w h)
  let s : ℚ := pydiv resolution side
  let bw0 := pyInt ((w : ℚ) * s)
  let bh0 := pyInt ((h : ℚ) * s)
  (max d (roundToMultiple bw0 d), max d (roundToMultiple bh0 d))

/-- One albumentations transform as recorded in a replay dict: its
`__class_fullname__` and its realized parameter map. -/
structure ATransform where
  classFullname : String
  params : List (String × String)
deriving DecidableEq

/-- The replay dict produced by `A.ReplayCompose`: the executed transforms
in order, plus the remaining bookkeeping fields (opaque here). -/
structure Replay where
  transforms : List ATransform
  info : List (String × String)
deriving DecidableEq

/-- The fields of `DatasetConfig` consumed by the embedded code. -/
structure DatasetConfig where
  resolution : ℤ
  bucket_tolerance : ℤ
  scale : ℚ
  random_crop : Bool
  buckets : Bool
  shuffle_augmentations : Bool
  invert_mask : Bool
  alpha_mask : Bool
  mask_min_value : ℚ
deriving DecidableEq

/-- The per-sample Item Record (`FileItemDTO`): natural size, config
reference, point-of-interest rectangle, flip flags, computed geometry,
latent-cache versions and the captured spatial replay record. The source
path is kept as a directory plus a file name, matching what
`os.path.dirname` / `os.path.basename` extract from it. -/
structure FileItem where
  path_dir : String
  path_file : String
  width : ℤ
  height : ℤ
  dataset_config : DatasetConfig
  has_point_of_interest : Bool
  poi_x : ℤ
  poi_y : ℤ
  poi_width : ℤ
  poi_height : ℤ
  flip_x : Bool
  flip_y : Bool
  scale_to_width : ℤ
  scale_to_height : ℤ
  crop_x : ℤ
  crop_y : ℤ
  crop_width : ℤ
  crop_height : ℤ
  latent_space_version : String
  latent_version : ℤ
  use_alpha_as_mask : Bool
  mask_min_value : ℚ
  aug_replay_spatial_transforms : Option Replay
deriving DecidableEq

/-- A bucket: its fixed crop resolution and the item indices assigned. -/
structure Bucket where
  width : ℤ
  height : ℤ
  file_list_idx : List ℕ
deriving DecidableEq

/-- Decimal digit character (`'0'` + `n % 10`). -/
def digitChar (n : ℕ) : Char := Char.ofNat (48 + n % 10)

/-- Fuel-driven decimal rendering of a natural number, most significant
digit first. -/
def natDecimalCore : ℕ → ℕ → List Char
  | 0, _ => []
  | f + 1, n => if n < 10 then [digitChar n] else natDecimalCore f (n / 10) ++ [digitChar (n % 10)]

/-- Decimal rendering of a natural number. -/
def natDecimal (n : ℕ) : List Char := natDecimalCore (n + 1) n

/-- Decimal rendering of an integer, as Python's `str` produces it. -/
def intDecimal (z : ℤ) : List Char :=
  if z < 0 then '-' :: natDecimal (-z).toNat else natDecimal z.toNat

/-- The bucket dictionary key `f'{width}x{height}'`. -/
def mkBucketKey (w h : ℤ) : String := String.mk (intDecimal w ++ 'x' :: intDecimal h)

/-- Reconstruct the value of a digit string (left inverse of the decimal
renderings). -/
def valChars (l : List Char) : ℕ := l.foldl (fun a c => 10 * a + (c.toNat - 48)) 0

/-- The standard (non-PoI) per-item geometry assignment of
`BucketsMixin.setup_buckets` (dataloader_mixins.py lines 192-232): find the
bucket resolution for the scaled size, enlarge by the maximum per-axis
scale factor, round up, and pick a random or centered crop offset. -/
def bucket_item_geometry (item : FileItem) (rng : Rng) : FileItem × Rng :=
  let width := pyInt ((item.width : ℚ) * item.dataset_config.scale)
  let height := pyInt ((item.height : ℚ) * item.dataset_config.scale)
  let bucket_resolution :=
    get_bucket_for_image_size width height item.dataset_config.resolution
      item.dataset_config.bucket_tolerance
  let width_scale_factor := pydiv bucket_resolution.1 width
  let height_scale_factor := pydiv bucket_resolution.2 height
  let max_scale_factor := max width_scale_factor height_scale_factor
  let scale_to_width := ⌈(width : ℚ) * max_scale_factor⌉
  let scale_to_height := ⌈(height : ℚ) * max_scale_factor⌉
  let new_width := bucket_resolution.1
  let new_height := bucket_resolution.2
  if item.dataset_config.random_crop then
    let (crop_x, rng1) := randint 0 (scale_to_width - new_width) rng
    let (crop_y, rng2) := randint 0 (scale_to_height - new_height) rng1
    ({ item with scale_to_width := scale_to_width, scale_to_height := scale_to_height,
                 crop_width := new_width, crop_height := new_height,
                 crop_x := crop_x, crop_y := crop_y }, rng2)
  else
    ({ item with scale_to_width := scale_to_width, scale_to_height := scale_to_height,
                 crop_width := new_width, crop_height := new_height,
                 crop_x := pyInt (pydiv (scale_to_width - new_width) 2),
                 crop_y := pyInt (pydiv (scale_to_height - new_height) 2) }, rng)

/-- One axis of a `setup_poi_bucket` search iteration: move the lower
bound to a random value in `[0, lower]`, then pick the upper bound at
random in `[new_lower + extent, axis_size]` (dataloader_mixins.py lines
1042-1067). -/
def poiAxis (A lower extent : ℤ) (rng : Rng) : ℤ × ℤ × Rng :=
  let s1 := if 0 < lower then randint 0 lower rng else (0, rng)
  let s2 := if s1.1 + extent < A then randint (s1.1 + extent) A s1.2 else (A, s1.2)
  (s1.1, s2.1 - s1.1, s2.2)

/-- One iteration of the `while` loop of
`PoiFileItemDTOMixin.setup_poi_bucket`: both axes treated independently. -/
def poiIterate (W H px py pw ph : ℤ) (rng : Rng) : ℤ × ℤ × ℤ × ℤ × Rng :=
  let x := poiAxis W px pw rng
  let y := poiAxis H py ph x.2.2
  (x.1, y.1, x.2.1, y.2.1, y.2.2)

/-- The `while` loop of `PoiFileItemDTOMixin.setup_poi_bucket`
(dataloader_mixins.py lines 1041-1084), fuel-bounded: iterate until the
window's resolution reaches the target. Returns the found window (if any),
the advanced oracle, and the number of attempts made. -/
def poiSearchLoop (resolution W H : ℤ) :
    ℕ → ℤ → ℤ → ℤ → ℤ → Rng → Option (ℤ × ℤ × ℤ × ℤ) × Rng × ℕ
  | 0, _, _, _, _, rng => (none, rng, 0)
  | f + 1, poi_x, poi_y, poi_width, poi_height, rng =>
    let it := poiIterate W H poi_x poi_y poi_width poi_height rng
    if resolution ≤ get_resolution it.2.2.1 it.2.2.2.1 then
      (some (it.1, it.2.1, it.2.2.1, it.2.2.2.1), it.2.2.2.2, 1)
    else
      let rec2 := poiSearchLoop resolution W H f it.1 it.2.1 it.2.2.1 it.2.2.2.1 it.2.2.2.2
      (rec2.1, rec2.2.1, rec2.2.2 + 1)

/-- Embeds `PoiFileItemDTOMixin.setup_poi_bucket` (dataloader_mixins.py lines
1023-1111): return `false` without searching when the scaled image is at or
below the target resolution; otherwise run the bounded search (the
source's `num_loops > 100` counter admits at most 101 attempts, i.e. 100
retries after the first), and on success derive the final geometry from
the found window. -/
def setup_poi_bucket (item : FileItem) (rng : Rng) : Bool × FileItem × Rng :=
  let initial_width := pyInt ((item.width : ℚ) * item.dataset_config.scale)
  let initial_height := pyInt ((item.height : ℚ) * item.dataset_config.scale)
  if get_resolution initial_width initial_height ≤ item.dataset_config.resolution then
    (false, item, rng)
  else
    let bucket_tolerance := item.dataset_config.bucket_tolerance
    let poi_x := pyInt ((item.poi_x : ℚ) * item.dataset_config.scale)
    let poi_y := pyInt ((item.poi_y : ℚ) * item.dataset_config.scale)
    let poi_width := pyInt ((item.poi_width : ℚ) * item.dataset_config.scale)
    let poi_height := pyInt ((item.poi_height : ℚ) * item.dataset_config.scale)
    match poiSearchLoop item.dataset_config.resolution initial_width initial_height
        101 poi_x poi_y poi_width poi_height rng with
    | (none, rng1, _) => (false, item, rng1)
    | (some (px, py, pw, ph), rng1, _) =>
      let bucket_resolution :=
        get_bucket_for_image_size pw ph item.dataset_config.resolution bucket_tolerance
      let width_scale_factor := pydiv bucket_resolution.1 pw
      let height_scale_factor := pydiv bucket_resolution.2 ph
      let max_scale_factor := max width_scale_factor height_scale_factor
      (true,
       { item with
           scale_to_width := ⌈(initial_width : ℚ) * max_scale_factor⌉,
           scale_to_height := ⌈(initial_height : ℚ) * max_scale_factor⌉,
           crop_width := bucket_resolution.1,
           crop_height := bucket_resolution.2,
           crop_x := pyInt ((px : ℚ) * max_scale_factor),
           crop_y := pyInt ((py : ℚ) * max_scale_factor) },
       rng1)

/-- The per-item step of `setup_buckets`: attempt the PoI path when the
item declares a point of interest, falling back to the standard path. -/
def setup_buckets_item (item : FileItem) (rng : Rng) : FileItem × Rng :=
  if item.has_point_of_interest then
    match setup_poi_bucket item rng with
    | (true, it, r) => (it, r)
    | (false, it, r) => bucket_item_geometry it r
  else
    bucket_item_geometry item rng

/-- Bucket-dictionary insertion (dataloader_mixins.py lines 237-241):
create the bucket keyed by `f'{crop_width}x{crop_height}'` on first use,
then append the item index. -/
def bucketsInsert (buckets : List (String × Bucket)) (key : String) (w h : ℤ) (idx : ℕ) :
    List (String × Bucket) :=
  if (buckets.lookup key).isSome then
    buckets.map (fun kb =>
      if kb.1 = key then (kb.1, { kb.2 with file_list_idx := kb.2.file_list_idx ++ [idx] })
      else kb)
  else
    buckets ++ [(key, { width := w, height := h, file_list_idx := [idx] })]

/-- The item loop of `BucketsMixin.setup_buckets`: fix each item's
geometry, then place its index into the bucket dictionary. -/
def setup_buckets_fold :
    List FileItem → ℕ → List FileItem → List (String × Bucket) → Rng →
    List FileItem × List (String × Bucket) × Rng
  | [], _, done, buckets, rng => (done, buckets, rng)
  | it :: rest, idx, done, buckets, rng =>
    let step := setup_buckets_item it rng
    let key := mkBucketKey step.1.crop_width step.1.crop_height
    setup_buckets_fold rest (idx + 1) (done ++ [step.1])
      (bucketsInsert buckets key step.1.crop_width step.1.crop_height idx) step.2

/-- Embeds `BucketsMixin.shuffle_buckets`, with Python's `random.shuffle`
abstracted as an oracle-driven permutation `shuffle`. -/
def shuffle_buckets (shuffle : Rng → List ℕ → List ℕ × Rng) :
    List (String × Bucket) → Rng → List (String × Bucket) × Rng
  | [], rng => ([], rng)
  | kb :: rest, rng =>
    let r := shuffle rng kb.2.file_list_idx
    let tailRes := shuffle_buckets shuffle rest r.2
    ((kb.1, { kb.2 with file_list_idx := r.1 }) :: tailRes.1, tailRes.2)

/-- Embeds `BucketsMixin.setup_buckets` run on a fresh epoch: process every item
in order, building the bucket dictionary, then shuffle each bucket's index
list. -/
def setup_buckets (shuffle : Rng → List ℕ → List ℕ × Rng)
    (items : List FileItem) (rng : Rng) :
    List FileItem × List (String × Bucket) × Rng :=
  let folded := setup_buckets_fold items 0 [] [] rng
  let shuffled := shuffle_buckets shuffle folded.2.1 folded.2.2
  (folded.1, shuffled.1, shuffled.2)

def cfgStd : DatasetConfig :=
  { resolution := 8, bucket_tolerance := 4, scale := 1, random_crop := false,
    buckets := true, shuffle_augmentations := false, invert_mask := false,
    alpha_mask := false, mask_min_value := 0 }

def itemStd : FileItem :=
  { path_dir := "imgs", path_file := "cat.png", width := 16, height := 16,
    dataset_config := cfgStd, has_point_of_interest := false,
    poi_x := 0, poi_y := 0, poi_width := 0, poi_height := 0,
    flip_x := false, flip_y := false,
    scale_to_width := 0, scale_to_height := 0,
    crop_x := 0, crop_y := 0, crop_width := 0, crop_height := 0,
    latent_space_version := "sd1", latent_version := 1,
    use_alpha_as_mask := false, mask_min_value := 0,
    aug_replay_spatial_transforms := none }

def rng0 : Rng := { seq := fun _ => 0, pos := 0 }

def itemSmall : FileItem :=
  { itemStd with width := 4, height := 4, has_point_of_interest := true }

def cfgPoi : DatasetConfig :=
  { cfgStd with resolution := 50, bucket_tolerance := 1 }

def itemPoiStuck : FileItem :=
  { itemStd with
    width := 100
    height := 100
    dataset_config := cfgPoi
    has_point_of_interest := true
    poi_x := 0
    poi_y := 0
    poi_width := 1
    poi_height := 1 }

/-- The containment property claimed by the spec (stated from the spec's
words, to be compared with what the code guarantees): the final crop
rectangle, in the scaled image, fully contains the scaled region of
interest. The region is scaled by the resize that maps the scaled source
`(W, H)` to `(scale_to_width, scale_to_height)`. -/
def poiCropContainsScaledRegion (item result : FileItem) : Prop :=
  ((result.crop_x : ℚ) ≤ (pyInt ((item.poi_x : ℚ) * item.dataset_config.scale) : ℚ) *
      (result.scale_to_width : ℚ) /
      (pyInt ((item.width : ℚ) * item.dataset_config.scale) : ℚ)) ∧
  (((pyInt ((item.poi_x : ℚ) * item.dataset_config.scale) +
        pyInt ((item.poi_width : ℚ) * item.dataset_config.scale) : ℤ) : ℚ) *
      (result.scale_to_width : ℚ) /
      (pyInt ((item.width : ℚ) * item.dataset_config.scale) : ℚ) ≤
    (result.crop_x : ℚ) + (result.crop_width : ℚ)) ∧
  ((result.crop_y : ℚ) ≤ (pyInt ((item.poi_y : ℚ) * item.dataset_config.scale) : ℚ) *
      (result.scale_to_height : ℚ) /
      (pyInt ((item.height : ℚ) * item.dataset_config.scale) : ℚ)) ∧
  (((pyInt ((item.poi_y : ℚ) * item.dataset_config.scale) +
        pyInt ((item.poi_height : ℚ) * item.dataset_config.scale) : ℤ) : ℚ) *
      (result.scale_to_height : ℚ) /
      (pyInt ((item.height : ℚ) * item.dataset_config.scale) : ℚ) ≤
    (result.crop_y : ℚ) + (result.crop_height : ℚ))

def cfgPoiC : DatasetConfig :=
  { cfgStd with resolution := 10, bucket_tolerance := 1 }

def itemPoiC : FileItem :=
  { itemStd with
    width := 100
    height := 100
    dataset_config := cfgPoiC
    has_point_of_interest := true
    poi_x := 50
    poi_y := 0
    poi_width := 10
    poi_height := 100 }

def rngC : Rng := { seq := fun p => if p = 1 then 2 else 0, pos := 0 }

def rngC2 : Rng := { seq := fun p => if p = 1 then 2 else 0, pos := 2 }

def itemPoiCResult : FileItem :=
  { itemPoiC with
    scale_to_width := 29
    scale_to_height := 29
    crop_x := 0
    crop_y := 0
    crop_width := 3
    crop_height := 29 }

/-- The bucket-dictionary invariant: every entry's key encodes its own
width/height, and every member index points at an item whose crop size
equals the bucket's size. -/
def BucketsInv (items : List FileItem) (buckets : List (String × Bucket)) : Prop :=
  ∀ kb ∈ buckets, kb.1 = mkBucketKey kb.2.width kb.2.height ∧
    ∀ i ∈ kb.2.file_list_idx, ∃ hi : i < items.length,
      (items.get ⟨i, hi⟩).crop_width = kb.2.width ∧
      (items.get ⟨i, hi⟩).crop_height = kb.2.height

/-- A JSON value as appearing in the latent info dict. -/
inductive JVal where
  | jint (z : ℤ)
  | jstr (s : String)
  | jbool (b : Bool)
deriving DecidableEq

/-- Embeds `LatentCachingFileItemDTOMixin.get_latent_info_dict`
(dataloader_mixins.py lines 1136-1153): the ordered geometry/version
record; `flip_x` / `flip_y` keys are appended only when true, so old
hashes of un-flipped items are preserved. -/
def get_latent_info_dict (item : FileItem) : List (String × JVal) :=
  [("filename", JVal.jstr item.path_file),
   ("scale_to_width", JVal.jint item.scale_to_width),
   ("scale_to_height", JVal.jint item.scale_to_height),
   ("crop_x", JVal.jint item.crop_x),
   ("crop_y", JVal.jint item.crop_y),
   ("crop_width", JVal.jint item.crop_width),
   ("crop_height", JVal.jint item.crop_height),
   ("latent_space_version", JVal.jstr item.latent_space_version),
   ("latent_version", JVal.jint item.latent_version)] ++
  (if item.flip_x then [("flip_x", JVal.jbool true)] else []) ++
  (if item.flip_y then [("flip_y", JVal.jbool true)] else [])

/-- Lexicographic byte order on char lists (Python's string `<=`). -/
def charsLe : List Char → List Char → Bool
  | [], _ => true
  | _ :: _, [] => false
  | a :: as, b :: bs =>
    if a.toNat < b.toNat then true
    else if b.toNat < a.toNat then false
    else charsLe as bs

/-- Python string ordering used by `json.dumps(..., sort_keys=True)`. -/
def strLe (a b : String) : Bool := charsLe a.data b.data

def insertSortedPair (p : String × JVal) : List (String × JVal) → List (String × JVal)
  | [] => [p]
  | q :: qs => if strLe p.1 q.1 then p :: q :: qs else q :: insertSortedPair p qs

/-- Key-sorting of the dict, as `json.dumps(..., sort_keys=True)` does. -/
def sortPairs (l : List (String × JVal)) : List (String × JVal) :=
  l.foldr insertSortedPair []

def insertSortedStr (s : String) : List String → List String
  | [] => [s]
  | q :: qs => if strLe s q then s :: q :: qs else q :: insertSortedStr s qs

def sortStrs (l : List String) : List String := l.foldr insertSortedStr []

/-- Rendering of one JSON value (`json.dumps` default style). -/
def jvalRender : JVal → String
  | JVal.jint z => String.mk (intDecimal z)
  | JVal.jstr s => "\x22" ++ s ++ "\x22"
  | JVal.jbool b => if b then "true" else "false"

def renderPair (p : String × JVal) : String :=
  "\x22" ++ p.1 ++ "\x22: " ++ jvalRender p.2

/-- Embeds `json.dumps(hash_dict, sort_keys=True)`: serialize with the keys in
canonical sorted order. -/
def jsonDumpsSorted (l : List (String × JVal)) : String :=
  "\x7b" ++ String.intercalate ", " ((sortPairs l).map renderPair) ++ "\x7d"

/-- The stem of `os.path.splitext(os.path.basename(path))` for an
ordinary file name: drop the last-dot extension. -/
def splitextStem (file : String) : String :=
  if ('.') ∈ file.data then
    String.mk (((file.data.reverse.dropWhile (fun c => c ≠ '.')).drop 1).reverse)
  else file

/-- Embeds `LatentCachingFileItemDTOMixin.get_latent_path` (dataloader_mixins.py
lines 1155-1170), with `recalculate=True`: the cache file lives in the
image's directory under `_latent_cache`, named from the filename stem plus
the digest of the sorted JSON serialization of the info dict with the
base64 `=` padding stripped. The md5-and-urlsafe-base64 digest is the
`digest` parameter. -/
def get_latent_path (digest : String → String) (item : FileItem) : String :=
  let latent_dir := item.path_dir ++ "/_latent_cache"
  let hash_dict := get_latent_info_dict item
  let filename_no_ext := splitextStem item.path_file
  let hash_input := jsonDumpsSorted hash_dict
  let hash_str := String.mk ((digest hash_input).data.filter (fun c => c ≠ '='))
  latent_dir ++ "/" ++ filename_no_ext ++ "_" ++ hash_str ++ ".safetensors"

/-- The tuple the claim says addresses the cache. -/
def latentTuple (item : FileItem) :
    String × ℤ × ℤ × ℤ × ℤ × ℤ × ℤ × String × ℤ × Bool × Bool :=
  (item.path_file, item.scale_to_width, item.scale_to_height, item.crop_x, item.crop_y,
   item.crop_width, item.crop_height, item.latent_space_version, item.latent_version,
   item.flip_x, item.flip_y)

def itemCacheA : FileItem :=
  { itemStd with
    path_dir := "a"
    scale_to_width := 520
    scale_to_height := 520
    crop_x := 4
    crop_y := 4
    crop_width := 512
    crop_height := 512 }

def itemCacheB : FileItem :=
  { itemCacheA with path_dir := "b" }

def itemCacheC : FileItem :=
  { itemCacheA with width := 999 }

/-- The spatial transform whitelist of `augment_image`
(dataloader_mixins.py lines 726-727). -/
def spatial_transforms : List String :=
  ["Rotate", "Flip", "HorizontalFlip", "VerticalFlip", "Resize", "Crop", "RandomCrop",
   "ElasticTransform", "GridDistortion", "OpticalDistortion"]

/-- Python `str.split('.')` on a character list. -/
def splitDot : List Char → List (List Char)
  | [] => [[]]
  | c :: rest =>
    match splitDot rest with
    | [] => [[]]
    | seg :: segs => if c = '.' then [] :: seg :: segs else (c :: seg) :: segs

/-- Computes `t['__class_fullname__'].split('.')[-1]`. -/
def lastNameComponent (s : String) : String := String.mk ((splitDot s.data).getLastD [])

/-- The replay filtering done by `augment_image` (line 729): keep only the
executed transforms whose class name is in the spatial whitelist. -/
def filter_spatial_transforms (r : Replay) : Replay :=
  { transforms := r.transforms.filter
      (fun t => decide (lastNameComponent t.classFullname ∈ spatial_transforms)),
    info := r.info }

/-- The image-library operations used by the augmentation code (PIL /
OpenCV / torchvision), abstracted: any interpretation may be plugged in. -/
structure ImageModel (Img Tensor : Type) where
  toTensor : Img → Tensor
  convert : String → Img → Img
  mode : Img → String
  replayTransforms : Replay → Img → Img
  bgr : Img → Img
  rgb : Img → Img

/-- Embeds `AugmentationFileItemDTOMixin.augment_image` (dataloader_mixins.py
lines 707-741). The composed albumentations pipeline (including its
optional shuffled rebuild) is the `pipeline` parameter: applied to the
BGR image and the oracle it yields the augmented image, the realized
replay record, and the advanced oracle. The spatial filter of the replay
is kept explicit. Returns the item holding the stored record, the
unaugmented tensor, the augmented tensor, and the advanced oracle. -/
def augment_image {Img Tensor : Type} (M : ImageModel Img Tensor)
    (pipeline : Img → Rng → Img × Replay × Rng) (item : FileItem) (img : Img)
    (transform : Option (Img → Tensor)) (rng : Rng) :
    FileItem × Tensor × Tensor × Rng :=
  let unaugmented_tensor := match transform with
    | none => M.toTensor img
    | some t => t img
  let open_cv_image := M.bgr img
  let transformed := pipeline open_cv_image rng
  let augmented_params := filter_spatial_transforms transformed.2.1
  let item1 := { item with aug_replay_spatial_transforms := some augmented_params }
  let augmented := M.rgb transformed.1
  let augmented_tensor := match transform with
    | none => M.toTensor augmented
    | some t => t augmented
  (item1, unaugmented_tensor, augmented_tensor, transformed.2.2)

/-- Embeds `AugmentationFileItemDTOMixin.augment_spatial_control`
(dataloader_mixins.py lines 744-773): with no stored record, just apply
the base transform; otherwise remember the colorspace, convert to RGB,
replay the stored spatial transforms, convert back, and transform. No
randomness is drawn. -/
def augment_spatial_control {Img Tensor : Type} (M : ImageModel Img Tensor)
    (item : FileItem) (img : Img) (transform : Img → Tensor) (rng : Rng) :
    Tensor × Rng :=
  match item.aug_replay_spatial_transforms with
  | none => (transform img, rng)
  | some stored =>
    let colorspace := M.mode img
    let imgRGB := M.convert "RGB" img
    let open_cv_image := M.bgr imgRGB
    let transformed := M.replayTransforms stored open_cv_image
    let augmented := M.rgb transformed
    let augmented2 := M.convert colorspace augmented
    (transform augmented2, rng)

/-- Symbolic image operations, used to track the order of effects in
`load_mask_image`. -/
inductive MOp where
  | alphaToChannels
  | convert (mode : String)
  | invertColors
  | flipLR
  | flipTB
  | blur (radius : ℤ)
  | resize (w h : ℤ)
  | cropOp (left top right bottom : ℤ)
  | bgrFlip
  | rgbFlip
  | replayOp (r : Replay)
  | valueMap (lo hi lo2 hi2 : ℚ)
deriving DecidableEq

/-- A symbolic image: its PIL mode plus the ordered trace of operations
applied to it. -/
structure SymImage where
  mode : String
  ops : List MOp
deriving DecidableEq

/-- A symbolic tensor: channel count (from the mode at `ToTensor` time)
plus the trace. -/
structure SymTensor where
  channels : ℕ
  ops : List MOp
deriving DecidableEq

/-- The symbolic interpretation of the image library. -/
def symModel : ImageModel SymImage SymTensor :=
  { toTensor := fun img => { channels := if img.mode = "L" then 1 else 3, ops := img.ops },
    convert := fun m img => { mode := m, ops := img.ops ++ [MOp.convert m] },
    mode := fun img => img.mode,
    replayTransforms := fun r img => { mode := img.mode, ops := img.ops ++ [MOp.replayOp r] },
    bgr := fun img => { mode := img.mode, ops := img.ops ++ [MOp.bgrFlip] },
    rgb := fun img => { mode := img.mode, ops := img.ops ++ [MOp.rgbFlip] } }

/-- Embeds `MaskFileItemDTOMixin.load_mask_image` (dataloader_mixins.py lines
806-882) over the symbolic image model, with the mask companion's size as
input. Geometry mutation (the orientation swap), the flips, the random
blur, the grayscale conversion, resize/crop and the optional spatial
replay follow the source's statement order; the non-bucket branch (which
raises in the source) yields `none`. Returns the mask tensor, the
(possibly mutated) item, and the advanced oracle. -/
def load_mask_image (item : FileItem) (maskW maskH : ℤ) (rng : Rng) :
    Option SymTensor × FileItem × Rng :=
  let img0 : SymImage := { mode := "raw", ops := [] }
  let img1 := if item.use_alpha_as_mask then
      { mode := img0.mode, ops := img0.ops ++ [MOp.alphaToChannels] } else img0
  let img2 := symModel.convert "RGB" img1
  let img3 := if item.dataset_config.invert_mask then
      { mode := img2.mode, ops := img2.ops ++ [MOp.invertColors] } else img2
  let fix_size := if maskH < maskW ∧ item.scale_to_width < item.scale_to_height then true
    else if maskW < maskH ∧ item.scale_to_height < item.scale_to_width then true
    else false
  let item1 := if fix_size then
      { item with
        scale_to_width := item.scale_to_height
        scale_to_height := item.scale_to_width
        crop_width := item.crop_height
        crop_height := item.crop_width
        crop_x := item.crop_y
        crop_y := item.crop_x }
    else item
  let img4 := if item.flip_x then { mode := img3.mode, ops := img3.ops ++ [MOp.flipLR] }
    else img3
  let img5 := if item.flip_y then { mode := img4.mode, ops := img4.ops ++ [MOp.flipTB] }
    else img4
  let draw := Rng.next rng
  let blur_radius :=
    pyInt (((min maskW maskH : ℤ) : ℚ) * pydiv (((draw.1 % 1000 : ℕ)) : ℤ) 1000 *
      pydiv 5 1000)
  let img6 := { mode := img5.mode, ops := img5.ops ++ [MOp.blur blur_radius] }
  let img7 := symModel.convert "L" img6
  if item.dataset_config.buckets then
    let img8 : SymImage :=
      { mode := img7.mode
        ops := img7.ops ++ [MOp.resize item1.scale_to_width item1.scale_to_height] }
    let img9 : SymImage :=
      { mode := img8.mode
        ops := img8.ops ++ [MOp.cropOp item1.crop_x item1.crop_y
          (item1.crop_x + item1.crop_width) (item1.crop_y + item1.crop_height)] }
    let step := match item.aug_replay_spatial_transforms with
      | some _ => augment_spatial_control symModel item img9 symModel.toTensor draw.2
      | none => (symModel.toTensor img9, draw.2)
    let mask_tensor : SymTensor :=
      { channels := step.1.channels
        ops := step.1.ops ++ [MOp.valueMap 0 1 item.mask_min_value 1] }
    (some mask_tensor, item1, step.2)
  else
    (none, item1, draw.2)

/-- The orientation-mismatch condition of `load_mask_image` (lines
826-834). -/
def fixSizeCond (item : FileItem) (maskW maskH : ℤ) : Prop :=
  (maskH < maskW ∧ item.scale_to_width < item.scale_to_height) ∨
  (maskW < maskH ∧ item.scale_to_height < item.scale_to_width)

def itemSwap : FileItem :=
  { itemStd with
    scale_to_width := 4
    scale_to_height := 8
    crop_x := 1
    crop_y := 2
    crop_width := 4
    crop_height := 5 }

/-- Is this operation a conversion to single-channel (`'L'`) mode? -/
def isConvertL : MOp → Bool
  | MOp.convert m => m == "L"
  | _ => false

/-- Is this operation a spatial replay? -/
def isReplayOp : MOp → Bool
  | MOp.replayOp _ => true
  | _ => false

def hasReplayOp (l : List MOp) : Bool := l.any isReplayOp

/-- Does some single-channel conversion occur strictly before some replay
in the trace? -/
def convertLPrecedesReplay : List MOp → Bool
  | [] => false
  | o :: rest => (isConvertL o && hasReplayOp rest) || convertLPrecedesReplay rest

def replayC : Replay := { transforms := [], info := [] }

def itemMask : FileItem :=
  { itemStd with
    scale_to_width := 8
    scale_to_height := 8
    crop_x := 0
    crop_y := 0
    crop_width := 8
    crop_height := 8
    aug_replay_spatial_transforms := some replayC }

def tensorC : SymTensor :=
  { channels := 1
    ops := [MOp.convert "RGB", MOp.blur 0, MOp.convert "L", MOp.resize 8 8,
      MOp.cropOp 0 0 8 8, MOp.convert "RGB", MOp.bgrFlip, MOp.replayOp replayC,
      MOp.rgbFlip, MOp.convert "L", MOp.valueMap 0 1 0 1] }

theorem pyInt_of_nonneg {q : ℚ} (h : 0 ≤ q) : pyInt q = ⌊q⌋ := by
  simp [pyInt, h]

theorem pyInt_nonneg {q : ℚ} (h : 0 ≤ q) : 0 ≤ pyInt q := by
  rw [pyInt_of_nonneg h]
  exact Int.floor_nonneg.mpr h

/-- Evaluation helper for the modelled `get_resolution` (the kernel cannot
reduce `Nat.sqrt` directly). -/
theorem get_resolution_eval {w h : ℤ} {r : ℕ}
    (h1 : r * r ≤ (w * h).toNat) (h2 : (w * h).toNat < (r + 1) * (r + 1)) :
    get_resolution w h = ((r : ℤ)) := by
  unfold get_resolution
  have hle : r ≤ Nat.sqrt (w * h).toNat := Nat.le_sqrt.mpr h1
  have hlt : Nat.sqrt (w * h).toNat < r + 1 := Nat.sqrt_lt.mpr h2
  omega

theorem get_bucket_width_pos {w h res d : ℤ} (hd : 1 ≤ d) :
    1 ≤ (get_bucket_for_image_size w h res d).1 := by
  unfold get_bucket_for_image_size
  simp only
  exact le_max_of_le_left hd

theorem get_bucket_height_pos {w h res d : ℤ} (hd : 1 ≤ d) :
    1 ≤ (get_bucket_for_image_size w h res d).2 := by
  unfold get_bucket_for_image_size
  simp only
  exact le_max_of_le_left hd

theorem digitChar_toNat (n : ℕ) : (digitChar n).toNat = 48 + n % 10 := by
  have h : n % 10 < 10 := Nat.mod_lt _ (by omega)
  unfold digitChar
  set j := n % 10 with hj
  interval_cases j <;> decide

theorem valChars_append_digit (l : List Char) (c : Char) :
    valChars (l ++ [c]) = 10 * valChars l + (c.toNat - 48) := by
  unfold valChars
  rw [List.foldl_append]
  rfl

theorem valChars_natDecimalCore {f n : ℕ} (h : n < f) :
    valChars (natDecimalCore f n) = n := by
  induction f generalizing n with
  | zero => omega
  | succ f ih =>
    unfold natDecimalCore
    by_cases h10 : n < 10
    · simp only [if_pos h10]
      unfold valChars
      simp [digitChar_toNat, Nat.mod_eq_of_lt h10]
    · simp only [if_neg h10]
      have hdiv : n / 10 < n := Nat.div_lt_self (by omega) (by omega)
      rw [valChars_append_digit, ih (by omega), digitChar_toNat]
      omega

theorem valChars_natDecimal (n : ℕ) : valChars (natDecimal n) = n :=
  valChars_natDecimalCore (Nat.lt_succ_self n)

theorem natDecimal_inj {m n : ℕ} (h : natDecimal m = natDecimal n) : m = n := by
  have := valChars_natDecimal m
  rw [h, valChars_natDecimal] at this
  omega

theorem natDecimalCore_digits {f n : ℕ} {c : Char} (h : c ∈ natDecimalCore f n) :
    48 ≤ c.toNat ∧ c.toNat ≤ 57 := by
  induction f generalizing n with
  | zero => simp [natDecimalCore] at h
  | succ f ih =>
    unfold natDecimalCore at h
    by_cases h10 : n < 10
    · simp only [if_pos h10, List.mem_singleton] at h
      subst h
      rw [digitChar_toNat]
      omega
    · simp only [if_neg h10, List.mem_append, List.mem_singleton] at h
      rcases h with h | h
      · exact ih h
      · subst h
        rw [digitChar_toNat]
        omega

theorem natDecimal_digits {n : ℕ} {c : Char} (h : c ∈ natDecimal n) :
    48 ≤ c.toNat ∧ c.toNat ≤ 57 := natDecimalCore_digits h

theorem natDecimal_ne_nil (n : ℕ) : natDecimal n ≠ [] := by
  unfold natDecimal natDecimalCore
  by_cases h10 : n < 10 <;> simp [h10]

theorem x_not_mem_natDecimal (n : ℕ) : 'x' ∉ natDecimal n := by
  intro h
  have hd := natDecimal_digits h
  have hx : ('x').toNat = 120 := by decide
  omega

theorem dash_not_mem_natDecimal (n : ℕ) : '-' ∉ natDecimal n := by
  intro h
  have hd := natDecimal_digits h
  have hx : ('-').toNat = 45 := by decide
  omega

theorem x_not_mem_intDecimal (z : ℤ) : 'x' ∉ intDecimal z := by
  unfold intDecimal
  by_cases hz : z < 0
  · simp only [if_pos hz, List.mem_cons]
    rintro (h | h)
    · exact absurd h (by decide)
    · exact x_not_mem_natDecimal _ h
  · simp only [if_neg hz]
    exact x_not_mem_natDecimal _

theorem intDecimal_inj {a b : ℤ} (h : intDecimal a = intDecimal b) : a = b := by
  unfold intDecimal at h
  by_cases ha : a < 0 <;> by_cases hb : b < 0
  · simp only [if_pos ha, if_pos hb, List.cons.injEq, true_and] at h
    have := natDecimal_inj h
    omega
  · simp only [if_pos ha, if_neg hb] at h
    have hmem : '-' ∈ natDecimal b.toNat := by
      rw [← h]
      exact List.mem_cons_self _ _
    exact absurd hmem (dash_not_mem_natDecimal _)
  · simp only [if_neg ha, if_pos hb] at h
    have hmem : '-' ∈ natDecimal a.toNat := by
      rw [h]
      exact List.mem_cons_self _ _
    exact absurd hmem (dash_not_mem_natDecimal _)
  · simp only [if_neg ha, if_neg hb] at h
    have := natDecimal_inj h
    omega

theorem splitAtFirstX {l1 l2 t1 t2 : List Char}
    (h1 : 'x' ∉ l1) (h2 : 'x' ∉ t1)
    (h : l1 ++ 'x' :: l2 = t1 ++ 'x' :: t2) : l1 = t1 ∧ l2 = t2 := by
  induction l1 generalizing t1 with
  | nil =>
    cases t1 with
    | nil => simpa using h
    | cons c cs =>
      simp only [List.nil_append, List.cons_append, List.cons.injEq] at h
      exact absurd (by rw [h.1]; exact List.mem_cons_self _ _) h2
  | cons c cs ih =>
    cases t1 with
    | nil =>
      simp only [List.cons_append, List.nil_append, List.cons.injEq] at h
      exact absurd (by rw [← h.1]; exact List.mem_cons_self _ _) h1
    | cons d ds =>
      simp only [List.cons_append, List.cons.injEq] at h
      have h1t : 'x' ∉ cs := fun hm => h1 (List.mem_cons_of_mem c hm)
      have h2t : 'x' ∉ ds := fun hm => h2 (List.mem_cons_of_mem d hm)
      have := ih h1t h2t h.2
      exact ⟨by rw [h.1, this.1], this.2⟩

theorem mkBucketKey_inj {a b c d : ℤ} (h : mkBucketKey a b = mkBucketKey c d) :
    a = c ∧ b = d := by
  unfold mkBucketKey at h
  have hdata : intDecimal a ++ 'x' :: intDecimal b = intDecimal c ++ 'x' :: intDecimal d := by
    have := congrArg String.data h
    simpa using this
  have := splitAtFirstX (x_not_mem_intDecimal a) (x_not_mem_intDecimal c) hdata
  exact ⟨intDecimal_inj this.1, intDecimal_inj this.2⟩

theorem randint_ge {lo hi : ℤ} (h : lo ≤ hi) (r : Rng) : lo ≤ (randint lo hi r).1 := by
  unfold randint
  have h1 : 0 ≤ ((r.seq r.pos : ℤ)) % (hi - lo + 1) := Int.emod_nonneg _ (by omega)
  simp only
  omega

theorem randint_le {lo hi : ℤ} (h : lo ≤ hi) (r : Rng) : (randint lo hi r).1 ≤ hi := by
  unfold randint
  have h2 : ((r.seq r.pos : ℤ)) % (hi - lo + 1) < hi - lo + 1 :=
    Int.emod_lt_of_pos _ (by omega)
  simp only
  omega

theorem randint_exact {lo hi v : ℤ} (h1 : lo ≤ v) (h2 : v ≤ hi) (s : ℕ) :
    (randint lo hi { seq := fun _ => (v - lo).toNat, pos := s }).1 = v := by
  have hv : (((v - lo).toNat : ℤ)) % (hi - lo + 1) = v - lo := by
    have ha : (((v - lo).toNat : ℤ)) = v - lo := by omega
    rw [ha]
    rw [Int.emod_eq_of_lt (by omega) (by omega)]
  show lo + (((v - lo).toNat : ℤ)) % (hi - lo + 1) = v
  rw [hv]
  omega

theorem floor_add_floor_le (a b : ℚ) : ⌊a⌋ + ⌊b⌋ ≤ ⌊a + b⌋ := by
  apply Int.le_floor.mpr
  push_cast
  exact add_le_add (Int.floor_le a) (Int.floor_le b)

theorem pydiv_eq (a b : ℤ) : pydiv a b = (a : ℚ) / (b : ℚ) := by
  unfold pydiv
  exact Rat.divInt_eq_div a b

theorem poiAxis_bounds {A lower extent : ℤ} {rng : Rng}
    (hl : 0 ≤ lower) (_he : 0 ≤ extent) (hA : lower + extent ≤ A) :
    0 ≤ (poiAxis A lower extent rng).1 ∧ (poiAxis A lower extent rng).1 ≤ lower ∧
      extent ≤ (poiAxis A lower extent rng).2.1 ∧
      (poiAxis A lower extent rng).1 + (poiAxis A lower extent rng).2.1 ≤ A := by
  unfold poiAxis
  by_cases hc1 : 0 < lower
  · simp only [if_pos hc1]
    have g1 := randint_ge (show (0:ℤ) ≤ lower by omega) rng
    have g2 := randint_le (show (0:ℤ) ≤ lower by omega) rng
    by_cases hc2 : (randint 0 lower rng).1 + extent < A
    · simp only [if_pos hc2]
      have g3 := randint_ge (show (randint 0 lower rng).1 + extent ≤ A by omega) (randint 0 lower rng).2
      have g4 := randint_le (show (randint 0 lower rng).1 + extent ≤ A by omega) (randint 0 lower rng).2
      refine ⟨g1, g2, by omega, by omega⟩
    · simp only [if_neg hc2]
      refine ⟨g1, g2, by omega, by omega⟩
  · simp only [if_neg hc1]
    have hl0 : lower = 0 := by omega
    by_cases hc2 : (0:ℤ) + extent < A
    · simp only [if_pos hc2]
      have g3 := randint_ge (show (0:ℤ) + extent ≤ A by omega) rng
      have g4 := randint_le (show (0:ℤ) + extent ≤ A by omega) rng
      refine ⟨le_refl 0, by omega, by omega, by omega⟩
    · simp only [if_neg hc2]
      refine ⟨le_refl 0, by omega, by omega, by omega⟩

theorem poiIterate_bounds {W H px py pw ph : ℤ} {rng : Rng}
    {px1 py1 pw1 ph1 : ℤ} {rng4 : Rng}
    (hpx : 0 ≤ px) (hpy : 0 ≤ py) (hpw : 0 ≤ pw) (hph : 0 ≤ ph)
    (hxW : px + pw ≤ W) (hyH : py + ph ≤ H)
    (h : poiIterate W H px py pw ph rng = (px1, py1, pw1, ph1, rng4)) :
    0 ≤ px1 ∧ px1 ≤ px ∧ 0 ≤ py1 ∧ py1 ≤ py ∧ pw ≤ pw1 ∧ ph ≤ ph1 ∧
      px1 + pw1 ≤ W ∧ py1 + ph1 ≤ H := by
  have hx := @poiAxis_bounds W px pw rng hpx hpw hxW
  have hy := @poiAxis_bounds H py ph (poiAxis W px pw rng).2.2 hpy hph hyH
  unfold poiIterate at h
  simp only [Prod.mk.injEq] at h
  obtain ⟨e1, e2, e3, e4, _⟩ := h
  subst e1
  subst e2
  subst e3
  subst e4
  exact ⟨hx.1, hx.2.1, hy.1, hy.2.1, hx.2.2.1, hy.2.2.1, hx.2.2.2, hy.2.2.2⟩

theorem poiSearchLoop_success {res W H : ℤ} :
    ∀ (f : ℕ) (px py pw ph : ℤ) (rng : Rng) {px1 py1 pw1 ph1 : ℤ} {rng1 : Rng} {n : ℕ},
    0 ≤ px → 0 ≤ py → 0 ≤ pw → 0 ≤ ph → px + pw ≤ W → py + ph ≤ H →
    poiSearchLoop res W H f px py pw ph rng = (some (px1, py1, pw1, ph1), rng1, n) →
    0 ≤ px1 ∧ px1 ≤ px ∧ 0 ≤ py1 ∧ py1 ≤ py ∧ pw ≤ pw1 ∧ ph ≤ ph1 ∧
      px1 + pw1 ≤ W ∧ py1 + ph1 ≤ H ∧ res ≤ get_resolution pw1 ph1 := by
  intro f
  induction f with
  | zero =>
    intro px py pw ph rng px1 py1 pw1 ph1 rng1 n _ _ _ _ _ _ h
    simp [poiSearchLoop] at h
  | succ f ih =>
    intro px py pw ph rng px1 py1 pw1 ph1 rng1 n hpx hpy hpw hph hxW hyH h
    unfold poiSearchLoop at h
    rcases hiter : poiIterate W H px py pw ph rng with ⟨qx, qy, qw, qh, qrng⟩
    rw [hiter] at h
    dsimp only at h
    have hb := poiIterate_bounds hpx hpy hpw hph hxW hyH hiter
    by_cases hres : res ≤ get_resolution qw qh
    · rw [if_pos hres] at h
      simp only [Prod.mk.injEq, Option.some.injEq] at h
      obtain ⟨⟨e1, e2, e3, e4⟩, _, _⟩ := h
      subst e1
      subst e2
      subst e3
      subst e4
      exact ⟨hb.1, hb.2.1, hb.2.2.1, hb.2.2.2.1, hb.2.2.2.2.1, hb.2.2.2.2.2.1,
        hb.2.2.2.2.2.2.1, hb.2.2.2.2.2.2.2, hres⟩
    · rw [if_neg hres] at h
      rcases hrec : poiSearchLoop res W H f qx qy qw qh qrng with ⟨r2, rng2, n2⟩
      rw [hrec] at h
      simp only [Prod.mk.injEq] at h
      obtain ⟨e1, e2, _⟩ := h
      subst e1
      subst e2
      have := ih qx qy qw qh qrng hb.1 hb.2.2.1 (by omega) (by omega)
        hb.2.2.2.2.2.2.1 hb.2.2.2.2.2.2.2 hrec
      refine ⟨this.1, by omega, this.2.2.1, by omega, by omega, by omega,
        this.2.2.2.2.2.2.1, this.2.2.2.2.2.2.2.1, this.2.2.2.2.2.2.2.2⟩

theorem poiSearchLoop_count {res W H : ℤ} :
    ∀ (f : ℕ) (px py pw ph : ℤ) (rng : Rng),
    (poiSearchLoop res W H f px py pw ph rng).2.2 ≤ f := by
  intro f
  induction f with
  | zero => intro px py pw ph rng; simp [poiSearchLoop]
  | succ f ih =>
    intro px py pw ph rng
    unfold poiSearchLoop
    rcases hiter : poiIterate W H px py pw ph rng with ⟨qx, qy, qw, qh, qrng⟩
    dsimp only
    by_cases hres : res ≤ get_resolution qw qh
    · rw [if_pos hres]
      dsimp only
      omega
    · rw [if_neg hres]
      have := ih qx qy qw qh qrng
      dsimp only
      omega

theorem get_resolution_pos {pw ph res : ℤ} (h1 : 1 ≤ res)
    (h2 : res ≤ get_resolution pw ph) (hpw : 0 ≤ pw) (hph : 0 ≤ ph) :
    1 ≤ pw ∧ 1 ≤ ph := by
  unfold get_resolution at h2
  have hsq : 1 ≤ Nat.sqrt (pw * ph).toNat := by omega
  have hprod : 1 * 1 ≤ (pw * ph).toNat := Nat.le_sqrt.mp hsq
  have hp : 0 < pw * ph := by omega
  constructor
  · by_contra h0
    have hz : pw = 0 := by omega
    rw [hz, zero_mul] at hp
    exact absurd hp (lt_irrefl 0)
  · by_contra h0
    have hz : ph = 0 := by omega
    rw [hz, mul_zero] at hp
    exact absurd hp (lt_irrefl 0)

theorem ceil_scale_ge {w bw bh h : ℤ} (hw : 1 ≤ w) (hh : 1 ≤ h) :
    bw ≤ ⌈(w : ℚ) * max (pydiv bw w) (pydiv bh h)⌉ := by
  have hw0 : (0 : ℚ) < (w : ℚ) := by exact_mod_cast hw
  have hm : (bw : ℚ) / (w : ℚ) ≤ max (pydiv bw w) (pydiv bh h) := by
    rw [← pydiv_eq]
    exact le_max_left _ _
  have h1 : (bw : ℚ) = (w : ℚ) * ((bw : ℚ) / (w : ℚ)) := by
    field_simp
  have h2 : (w : ℚ) * ((bw : ℚ) / (w : ℚ)) ≤ (w : ℚ) * max (pydiv bw w) (pydiv bh h) :=
    mul_le_mul_of_nonneg_left hm (le_of_lt hw0)
  have h3 : (w : ℚ) * max (pydiv bw w) (pydiv bh h) ≤
      ((⌈(w : ℚ) * max (pydiv bw w) (pydiv bh h)⌉ : ℤ) : ℚ) := Int.le_ceil _
  have : (bw : ℚ) ≤ ((⌈(w : ℚ) * max (pydiv bw w) (pydiv bh h)⌉ : ℤ) : ℚ) := by
    rw [h1]
    exact le_trans h2 h3
  exact_mod_cast this

theorem ceil_scale_ge_right {w bw bh h : ℤ} (hw : 1 ≤ w) (hh : 1 ≤ h) :
    bh ≤ ⌈(h : ℚ) * max (pydiv bw w) (pydiv bh h)⌉ := by
  have hh0 : (0 : ℚ) < (h : ℚ) := by exact_mod_cast hh
  have hm : (bh : ℚ) / (h : ℚ) ≤ max (pydiv bw w) (pydiv bh h) := by
    rw [← pydiv_eq]
    exact le_max_right _ _
  have h1 : (bh : ℚ) = (h : ℚ) * ((bh : ℚ) / (h : ℚ)) := by
    field_simp
  have h2 : (h : ℚ) * ((bh : ℚ) / (h : ℚ)) ≤ (h : ℚ) * max (pydiv bw w) (pydiv bh h) :=
    mul_le_mul_of_nonneg_left hm (le_of_lt hh0)
  have h3 : (h : ℚ) * max (pydiv bw w) (pydiv bh h) ≤
      ((⌈(h : ℚ) * max (pydiv bw w) (pydiv bh h)⌉ : ℤ) : ℚ) := Int.le_ceil _
  have : (bh : ℚ) ≤ ((⌈(h : ℚ) * max (pydiv bw w) (pydiv bh h)⌉ : ℤ) : ℚ) := by
    rw [h1]
    exact le_trans h2 h3
  exact_mod_cast this

theorem half_bounds {z : ℤ} (hz : 0 ≤ z) :
    0 ≤ pyInt (pydiv z 2) ∧ pyInt (pydiv z 2) ≤ z := by
  have hz0 : (0 : ℚ) ≤ (z : ℚ) := by exact_mod_cast hz
  rw [pydiv_eq, pyInt_of_nonneg (by positivity)]
  constructor
  · exact Int.floor_nonneg.mpr (by positivity)
  · have hle : (z : ℚ) / 2 ≤ (z : ℚ) := by linarith
    calc ⌊(z : ℚ) / 2⌋ ≤ ⌊(z : ℚ)⌋ := Int.floor_le_floor hle
      _ = z := Int.floor_intCast z

theorem crop_fit {px pw W bw : ℤ} {m : ℚ} (hpx : 0 ≤ px) (hpw : 1 ≤ pw)
    (hbw : 1 ≤ bw) (hW : px + pw ≤ W) (hmge0 : pydiv bw pw ≤ m) :
    pyInt ((px : ℚ) * m) + bw ≤ ⌈(W : ℚ) * m⌉ := by
  have hmge : (bw : ℚ) / (pw : ℚ) ≤ m := by
    rw [← pydiv_eq]
    exact hmge0
  have hpw0 : (0 : ℚ) < (pw : ℚ) := by exact_mod_cast hpw
  have hbw0 : (0 : ℚ) < (bw : ℚ) := by exact_mod_cast hbw
  have hm0 : 0 ≤ m := le_trans (by positivity) hmge
  have hxm : 0 ≤ (px : ℚ) * m := mul_nonneg (by exact_mod_cast hpx) hm0
  rw [pyInt_of_nonneg hxm]
  have h1 : ((⌊(px : ℚ) * m⌋ : ℤ) : ℚ) ≤ (px : ℚ) * m := Int.floor_le _
  have h2 : (bw : ℚ) ≤ (pw : ℚ) * m := by
    rw [div_le_iff₀ hpw0] at hmge
    linarith
  have h3 : ((px : ℚ) + (pw : ℚ)) * m ≤ (W : ℚ) * m := by
    apply mul_le_mul_of_nonneg_right _ hm0
    exact_mod_cast hW
  have h4 : (W : ℚ) * m ≤ ((⌈(W : ℚ) * m⌉ : ℤ) : ℚ) := Int.le_ceil _
  have hdist : ((px : ℚ) + (pw : ℚ)) * m = (px : ℚ) * m + (pw : ℚ) * m := by ring
  have : ((⌊(px : ℚ) * m⌋ : ℤ) : ℚ) + (bw : ℚ) ≤ ((⌈(W : ℚ) * m⌉ : ℤ) : ℚ) := by
    linarith
  exact_mod_cast this

theorem pyInt_mul_nonneg {a : ℤ} {s : ℚ} (ha : 0 ≤ a) (hs : 0 ≤ s) :
    0 ≤ pyInt ((a : ℚ) * s) :=
  pyInt_nonneg (mul_nonneg (by exact_mod_cast ha) hs)

theorem pyInt_mul_add_le {a b c : ℤ} {s : ℚ} (ha : 0 ≤ a) (hb : 0 ≤ b)
    (hs : 0 ≤ s) (h : a + b ≤ c) :
    pyInt ((a : ℚ) * s) + pyInt ((b : ℚ) * s) ≤ pyInt ((c : ℚ) * s) := by
  have hc : 0 ≤ c := by omega
  have ha0 : (0 : ℚ) ≤ (a : ℚ) * s := mul_nonneg (by exact_mod_cast ha) hs
  have hb0 : (0 : ℚ) ≤ (b : ℚ) * s := mul_nonneg (by exact_mod_cast hb) hs
  have hc0 : (0 : ℚ) ≤ (c : ℚ) * s := mul_nonneg (by exact_mod_cast hc) hs
  rw [pyInt_of_nonneg ha0, pyInt_of_nonneg hb0, pyInt_of_nonneg hc0]
  have hsum : (a : ℚ) * s + (b : ℚ) * s ≤ (c : ℚ) * s := by
    have hab : ((a : ℚ) + (b : ℚ)) ≤ (c : ℚ) := by exact_mod_cast h
    nlinarith
  calc ⌊(a : ℚ) * s⌋ + ⌊(b : ℚ) * s⌋ ≤ ⌊(a : ℚ) * s + (b : ℚ) * s⌋ := floor_add_floor_le _ _
    _ ≤ ⌊(c : ℚ) * s⌋ := Int.floor_le_floor hsum

theorem bucket_item_geometry_fit {item : FileItem} (rng : Rng)
    (hw : 1 ≤ pyInt ((item.width : ℚ) * item.dataset_config.scale))
    (hh : 1 ≤ pyInt ((item.height : ℚ) * item.dataset_config.scale)) :
    (bucket_item_geometry item rng).1.crop_x + (bucket_item_geometry item rng).1.crop_width ≤
      (bucket_item_geometry item rng).1.scale_to_width ∧
    (bucket_item_geometry item rng).1.crop_y + (bucket_item_geometry item rng).1.crop_height ≤
      (bucket_item_geometry item rng).1.scale_to_height := by
  unfold bucket_item_geometry
  dsimp only
  set w := pyInt ((item.width : ℚ) * item.dataset_config.scale) with hwdef
  set h := pyInt ((item.height : ℚ) * item.dataset_config.scale) with hhdef
  set bw := (get_bucket_for_image_size w h item.dataset_config.resolution
    item.dataset_config.bucket_tolerance).1 with hbwdef
  set bh := (get_bucket_for_image_size w h item.dataset_config.resolution
    item.dataset_config.bucket_tolerance).2 with hbhdef
  have hstw := @ceil_scale_ge w bw bh h hw hh
  have hsth := @ceil_scale_ge_right w bw bh h hw hh
  by_cases hrc : item.dataset_config.random_crop
  · rw [if_pos hrc]
    dsimp only
    constructor
    · have := @randint_le 0
        (⌈(w : ℚ) * max (pydiv bw w) (pydiv bh h)⌉ - bw) (by omega) rng
      omega
    · have := @randint_le 0
        (⌈(h : ℚ) * max (pydiv bw w) (pydiv bh h)⌉ - bh) (by omega)
        (randint 0 (⌈(w : ℚ) * max (pydiv bw w) (pydiv bh h)⌉ - bw) rng).2
      omega
  · rw [if_neg hrc]
    dsimp only
    constructor
    · have := half_bounds (z := ⌈(w : ℚ) * max (pydiv bw w) (pydiv bh h)⌉ - bw) (by omega)
      omega
    · have := half_bounds (z := ⌈(h : ℚ) * max (pydiv bw w) (pydiv bh h)⌉ - bh) (by omega)
      omega

theorem setup_poi_bucket_false {item : FileItem} {rng : Rng} {it1 : FileItem} {rng1 : Rng}
    (h : setup_poi_bucket item rng = (false, it1, rng1)) : it1 = item := by
  unfold setup_poi_bucket at h
  dsimp only at h
  by_cases hearly : get_resolution (pyInt ((item.width : ℚ) * item.dataset_config.scale))
      (pyInt ((item.height : ℚ) * item.dataset_config.scale)) ≤ item.dataset_config.resolution
  · rw [if_pos hearly] at h
    simp only [Prod.mk.injEq] at h
    exact h.2.1.symm
  · rw [if_neg hearly] at h
    rcases hloop : poiSearchLoop item.dataset_config.resolution
        (pyInt ((item.width : ℚ) * item.dataset_config.scale))
        (pyInt ((item.height : ℚ) * item.dataset_config.scale)) 101
        (pyInt ((item.poi_x : ℚ) * item.dataset_config.scale))
        (pyInt ((item.poi_y : ℚ) * item.dataset_config.scale))
        (pyInt ((item.poi_width : ℚ) * item.dataset_config.scale))
        (pyInt ((item.poi_height : ℚ) * item.dataset_config.scale)) rng with ⟨r0, rng0, n0⟩
    rw [hloop] at h
    cases r0 with
    | none =>
      dsimp only at h
      simp only [Prod.mk.injEq] at h
      exact h.2.1.symm
    | some win =>
      rcases win with ⟨px1, py1, pw1, ph1⟩
      dsimp only at h
      simp only [Prod.mk.injEq] at h
      exact absurd h.1 (by simp)

theorem setup_poi_bucket_bounds {item : FileItem} {rng : Rng} {it1 : FileItem} {rng1 : Rng}
    (hd : 1 ≤ item.dataset_config.bucket_tolerance)
    (hres : 1 ≤ item.dataset_config.resolution)
    (hs : 0 ≤ item.dataset_config.scale)
    (hpx : 0 ≤ item.poi_x) (hpy : 0 ≤ item.poi_y)
    (hpw : 0 ≤ item.poi_width) (hph : 0 ≤ item.poi_height)
    (hxw : item.poi_x + item.poi_width ≤ item.width)
    (hyh : item.poi_y + item.poi_height ≤ item.height)
    (h : setup_poi_bucket item rng = (true, it1, rng1)) :
    it1.crop_x + it1.crop_width ≤ it1.scale_to_width ∧
      it1.crop_y + it1.crop_height ≤ it1.scale_to_height := by
  unfold setup_poi_bucket at h
  dsimp only at h
  set W := pyInt ((item.width : ℚ) * item.dataset_config.scale) with hWdef
  set H := pyInt ((item.height : ℚ) * item.dataset_config.scale) with hHdef
  set px0 := pyInt ((item.poi_x : ℚ) * item.dataset_config.scale) with hpx0def
  set py0 := pyInt ((item.poi_y : ℚ) * item.dataset_config.scale) with hpy0def
  set pw0 := pyInt ((item.poi_width : ℚ) * item.dataset_config.scale) with hpw0def
  set ph0 := pyInt ((item.poi_height : ℚ) * item.dataset_config.scale) with hph0def
  by_cases hearly : get_resolution W H ≤ item.dataset_config.resolution
  · rw [if_pos hearly] at h
    simp only [Prod.mk.injEq] at h
    exact absurd h.1 (by simp)
  · rw [if_neg hearly] at h
    rcases hloop : poiSearchLoop item.dataset_config.resolution W H 101 px0 py0 pw0 ph0 rng
      with ⟨r0, rng0, n0⟩
    rw [hloop] at h
    cases r0 with
    | none =>
      dsimp only at h
      simp only [Prod.mk.injEq] at h
      exact absurd h.1 (by simp)
    | some win =>
      rcases win with ⟨px1, py1, pw1, ph1⟩
      dsimp only at h
      simp only [Prod.mk.injEq] at h
      obtain ⟨-, hit, -⟩ := h
      subst hit
      have hWx : px0 + pw0 ≤ W := pyInt_mul_add_le hpx hpw hs hxw
      have hHy : py0 + ph0 ≤ H := pyInt_mul_add_le hpy hph hs hyh
      have hwin := poiSearchLoop_success 101 px0 py0 pw0 ph0 rng
        (pyInt_mul_nonneg hpx hs) (pyInt_mul_nonneg hpy hs)
        (pyInt_mul_nonneg hpw hs) (pyInt_mul_nonneg hph hs) hWx hHy hloop
      obtain ⟨hx1, hx2, hy1, hy2, hw1, hh1, hxl, hyl, hrc⟩ := hwin
      have hpw0n : 0 ≤ pw0 := pyInt_mul_nonneg hpw hs
      have hph0n : 0 ≤ ph0 := pyInt_mul_nonneg hph hs
      have hdim := get_resolution_pos hres hrc (by omega) (by omega)
      constructor
      · exact crop_fit hx1 hdim.1 (get_bucket_width_pos hd) hxl (le_max_left _ _)
      · exact crop_fit hy1 hdim.2 (get_bucket_height_pos hd) hyl (le_max_right _ _)

/-- C3: for every item whose geometry is set by `setup_buckets` (standard
or PoI path, under sane positive configuration and an in-bounds point of
interest), the resulting geometry satisfies
`scale_to_width ≥ crop_x + crop_width` and
`scale_to_height ≥ crop_y + crop_height`. -/
theorem c3_geometry_invariant (item : FileItem) (rng : Rng)
    (hw : 1 ≤ pyInt ((item.width : ℚ) * item.dataset_config.scale))
    (hh : 1 ≤ pyInt ((item.height : ℚ) * item.dataset_config.scale))
    (hd : 1 ≤ item.dataset_config.bucket_tolerance)
    (hres : 1 ≤ item.dataset_config.resolution)
    (hs : 0 ≤ item.dataset_config.scale)
    (hpx : 0 ≤ item.poi_x) (hpy : 0 ≤ item.poi_y)
    (hpw : 0 ≤ item.poi_width) (hph : 0 ≤ item.poi_height)
    (hxw : item.poi_x + item.poi_width ≤ item.width)
    (hyh : item.poi_y + item.poi_height ≤ item.height) :
    (setup_buckets_item item rng).1.crop_x + (setup_buckets_item item rng).1.crop_width ≤
      (setup_buckets_item item rng).1.scale_to_width ∧
    (setup_buckets_item item rng).1.crop_y + (setup_buckets_item item rng).1.crop_height ≤
      (setup_buckets_item item rng).1.scale_to_height := by
  unfold setup_buckets_item
  by_cases hpoi : item.has_point_of_interest
  · rw [if_pos hpoi]
    rcases hsp : setup_poi_bucket item rng with ⟨b, it1, rng1⟩
    cases b with
    | true =>
      dsimp only
      exact setup_poi_bucket_bounds hd hres hs hpx hpy hpw hph hxw hyh hsp
    | false =>
      dsimp only
      have hid : it1 = item := setup_poi_bucket_false hsp
      subst hid
      exact bucket_item_geometry_fit rng1 hw hh
  · rw [if_neg hpoi]
    exact bucket_item_geometry_fit rng hw hh

/-- Witness for C3: the hypotheses hold at a concrete 16×16 item with
scale 1, resolution 8, tolerance 4; the invariant follows. -/
theorem c3_geometry_invariant_witness :
    (1 ≤ pyInt ((itemStd.width : ℚ) * itemStd.dataset_config.scale)) ∧
    (1 ≤ itemStd.dataset_config.bucket_tolerance) ∧
    ((setup_buckets_item itemStd rng0).1.crop_x +
        (setup_buckets_item itemStd rng0).1.crop_width ≤
      (setup_buckets_item itemStd rng0).1.scale_to_width ∧
    (setup_buckets_item itemStd rng0).1.crop_y +
        (setup_buckets_item itemStd rng0).1.crop_height ≤
      (setup_buckets_item itemStd rng0).1.scale_to_height) := by
  refine ⟨?_, ?_, ?_⟩
  · show (1 : ℤ) ≤ pyInt ((16 : ℚ) * 1)
    rw [pyInt_of_nonneg (by norm_num)]
    norm_num
  · show (1 : ℤ) ≤ 4
    norm_num
  · exact c3_geometry_invariant itemStd rng0
      (by show (1 : ℤ) ≤ pyInt ((16 : ℚ) * 1); rw [pyInt_of_nonneg (by norm_num)]; norm_num)
      (by show (1 : ℤ) ≤ pyInt ((16 : ℚ) * 1); rw [pyInt_of_nonneg (by norm_num)]; norm_num)
      (by norm_num [itemStd, cfgStd]) (by norm_num [itemStd, cfgStd])
      (by norm_num [itemStd, cfgStd]) (by norm_num [itemStd])
      (by norm_num [itemStd]) (by norm_num [itemStd]) (by norm_num [itemStd])
      (by norm_num [itemStd]) (by norm_num [itemStd])

theorem randint_at {lo hi v : ℤ} (h1 : lo ≤ v) (h2 : v ≤ hi) (r : Rng)
    (hr : r.seq r.pos = (v - lo).toNat) : (randint lo hi r).1 = v := by
  have hv : (((v - lo).toNat : ℤ)) % (hi - lo + 1) = v - lo := by
    have ha : (((v - lo).toNat : ℤ)) = v - lo := by omega
    rw [ha]
    rw [Int.emod_eq_of_lt (by omega) (by omega)]
  show lo + ((r.seq r.pos : ℤ)) % (hi - lo + 1) = v
  rw [hr, hv]
  omega

theorem bucket_item_geometry_crop_attain (item : FileItem)
    (w h bw bh : ℤ) (m : ℚ)
    (hweq : w = pyInt ((item.width : ℚ) * item.dataset_config.scale))
    (hheq : h = pyInt ((item.height : ℚ) * item.dataset_config.scale))
    (hbeq : (bw, bh) = get_bucket_for_image_size w h item.dataset_config.resolution
      item.dataset_config.bucket_tolerance)
    (hmeq : m = max (pydiv bw w) (pydiv bh h))
    (hrc : item.dataset_config.random_crop = true)
    (v u : ℤ) (hv1 : 0 ≤ v) (hv2 : v ≤ ⌈(w : ℚ) * m⌉ - bw)
    (hu1 : 0 ≤ u) (hu2 : u ≤ ⌈(h : ℚ) * m⌉ - bh) :
    ∃ rng0 : Rng, (bucket_item_geometry item rng0).1.crop_x = v ∧
      (bucket_item_geometry item rng0).1.crop_y = u := by
  have hbw : bw = (get_bucket_for_image_size w h item.dataset_config.resolution
      item.dataset_config.bucket_tolerance).1 := by rw [← hbeq]
  have hbh : bh = (get_bucket_for_image_size w h item.dataset_config.resolution
      item.dataset_config.bucket_tolerance).2 := by rw [← hbeq]
  refine ⟨{ seq := fun p => if p = 0 then v.toNat else u.toNat, pos := 0 }, ?_, ?_⟩
  · unfold bucket_item_geometry
    dsimp only
    rw [← hweq, ← hheq, ← hbw, ← hbh, ← hmeq, if_pos hrc]
    dsimp only
    refine randint_at (by omega) (by omega) _ ?_
    show (if (0 : ℕ) = 0 then v.toNat else u.toNat) = (v - 0).toNat
    simp
  · unfold bucket_item_geometry
    dsimp only
    rw [← hweq, ← hheq, ← hbw, ← hbh, ← hmeq, if_pos hrc]
    dsimp only
    refine randint_at (by omega) (by omega) _ ?_
    unfold randint
    show (if (0 : ℕ) + 1 = 0 then v.toNat else u.toNat) = (u - 0).toNat
    simp

/-- C5: on the standard (non-PoI) path with positive scaled dimensions,
`setup_buckets` sets `scale_to_* = ceil(dim * m)` with `m` the maximum of
the two per-axis bucket scale factors (hence both scaled axes reach the
bucket size), draws the crop offset uniformly from
`[0, scale_to_dim - bucket_dim]` when `random_crop` is on (every value in
the range is attainable), and centers it (`floor(slack / 2)`) otherwise. -/
theorem c5_standard_bucket_formulas (item : FileItem) (rng : Rng)
    (w h bw bh : ℤ) (m : ℚ)
    (hweq : w = pyInt ((item.width : ℚ) * item.dataset_config.scale))
    (hheq : h = pyInt ((item.height : ℚ) * item.dataset_config.scale))
    (hbeq : (bw, bh) = get_bucket_for_image_size w h item.dataset_config.resolution
      item.dataset_config.bucket_tolerance)
    (hmeq : m = max (pydiv bw w) (pydiv bh h))
    (hw : 1 ≤ w) (hh : 1 ≤ h) :
    (bucket_item_geometry item rng).1.scale_to_width = ⌈(w : ℚ) * m⌉ ∧
    (bucket_item_geometry item rng).1.scale_to_height = ⌈(h : ℚ) * m⌉ ∧
    bw ≤ (bucket_item_geometry item rng).1.scale_to_width ∧
    bh ≤ (bucket_item_geometry item rng).1.scale_to_height ∧
    (item.dataset_config.random_crop = true →
      (0 ≤ (bucket_item_geometry item rng).1.crop_x ∧
       (bucket_item_geometry item rng).1.crop_x ≤ ⌈(w : ℚ) * m⌉ - bw ∧
       0 ≤ (bucket_item_geometry item rng).1.crop_y ∧
       (bucket_item_geometry item rng).1.crop_y ≤ ⌈(h : ℚ) * m⌉ - bh) ∧
      (∀ v u : ℤ, 0 ≤ v → v ≤ ⌈(w : ℚ) * m⌉ - bw → 0 ≤ u → u ≤ ⌈(h : ℚ) * m⌉ - bh →
        ∃ rng0 : Rng, (bucket_item_geometry item rng0).1.crop_x = v ∧
          (bucket_item_geometry item rng0).1.crop_y = u)) ∧
    (item.dataset_config.random_crop = false →
      (bucket_item_geometry item rng).1.crop_x = ⌊((⌈(w : ℚ) * m⌉ - bw : ℤ) : ℚ) / 2⌋ ∧
      (bucket_item_geometry item rng).1.crop_y = ⌊((⌈(h : ℚ) * m⌉ - bh : ℤ) : ℚ) / 2⌋) := by
  have hbw : bw = (get_bucket_for_image_size w h item.dataset_config.resolution
      item.dataset_config.bucket_tolerance).1 := by rw [← hbeq]
  have hbh : bh = (get_bucket_for_image_size w h item.dataset_config.resolution
      item.dataset_config.bucket_tolerance).2 := by rw [← hbeq]
  have hstw : bw ≤ ⌈(w : ℚ) * m⌉ := by
    rw [hmeq, hbw, hbh]
    exact ceil_scale_ge hw hh
  have hsth : bh ≤ ⌈(h : ℚ) * m⌉ := by
    rw [hmeq, hbw, hbh]
    exact ceil_scale_ge_right hw hh
  have hattain := bucket_item_geometry_crop_attain item w h bw bh m hweq hheq hbeq hmeq
  refine ⟨?_, ?_, ?_, ?_, fun htrue => ⟨?_, hattain htrue⟩, fun hfalse => ?_⟩
  · unfold bucket_item_geometry
    dsimp only
    rw [← hweq, ← hheq, ← hbw, ← hbh, ← hmeq]
    by_cases hrc : item.dataset_config.random_crop = true
    · rw [if_pos hrc]
    · rw [if_neg hrc]
  · unfold bucket_item_geometry
    dsimp only
    rw [← hweq, ← hheq, ← hbw, ← hbh, ← hmeq]
    by_cases hrc : item.dataset_config.random_crop = true
    · rw [if_pos hrc]
    · rw [if_neg hrc]
  · unfold bucket_item_geometry
    dsimp only
    rw [← hweq, ← hheq, ← hbw, ← hbh, ← hmeq]
    by_cases hrc : item.dataset_config.random_crop = true
    · rw [if_pos hrc]
      exact hstw
    · rw [if_neg hrc]
      exact hstw
  · unfold bucket_item_geometry
    dsimp only
    rw [← hweq, ← hheq, ← hbw, ← hbh, ← hmeq]
    by_cases hrc : item.dataset_config.random_crop = true
    · rw [if_pos hrc]
      exact hsth
    · rw [if_neg hrc]
      exact hsth
  · unfold bucket_item_geometry
    dsimp only
    rw [← hweq, ← hheq, ← hbw, ← hbh, ← hmeq, if_pos htrue]
    dsimp only
    refine ⟨randint_ge (by omega) rng, ?_, randint_ge (by omega) _, ?_⟩
    · have := @randint_le 0 (⌈(w : ℚ) * m⌉ - bw) (by omega) rng
      omega
    · have := @randint_le 0 (⌈(h : ℚ) * m⌉ - bh) (by omega)
        (randint 0 (⌈(w : ℚ) * m⌉ - bw) rng).2
      omega
  · unfold bucket_item_geometry
    dsimp only
    rw [← hweq, ← hheq, ← hbw, ← hbh, ← hmeq,
      if_neg (by rw [hfalse]; exact Bool.false_ne_true)]
    dsimp only
    have hzx : (0 : ℤ) ≤ ⌈(w : ℚ) * m⌉ - bw := by omega
    have hzy : (0 : ℤ) ≤ ⌈(h : ℚ) * m⌉ - bh := by omega
    have hzx0 : (0 : ℚ) ≤ ((⌈(w : ℚ) * m⌉ - bw : ℤ) : ℚ) := by exact_mod_cast hzx
    have hzy0 : (0 : ℚ) ≤ ((⌈(h : ℚ) * m⌉ - bh : ℤ) : ℚ) := by exact_mod_cast hzy
    constructor
    · rw [pydiv_eq, pyInt_of_nonneg (by positivity)]
      norm_num
    · rw [pydiv_eq, pyInt_of_nonneg (by positivity)]
      norm_num

theorem get_resolution_16 : get_resolution 16 16 = 16 := by
  have := get_resolution_eval (w := 16) (h := 16) (r := 16) (by norm_num) (by norm_num)
  exact_mod_cast this

theorem get_bucket_16 : ((8 : ℤ), (8 : ℤ)) = get_bucket_for_image_size 16 16 8 4 := by
  unfold get_bucket_for_image_size
  dsimp only
  rw [get_resolution_16, max_eq_right (by norm_num : (1 : ℤ) ≤ 16)]
  have hs : pydiv 8 16 = (1 : ℚ) / 2 := by rw [pydiv_eq]; norm_num
  rw [hs]
  have hb : pyInt ((((16 : ℤ)) : ℚ) * (1 / 2)) = 8 := by
    rw [pyInt_of_nonneg (by norm_num)]
    norm_num
  rw [hb]
  unfold roundToMultiple
  norm_num

/-- Witness for C5: at the concrete 16×16 item (scale 1, resolution 8,
tolerance 4, centered crop) the hypotheses hold with bucket (8, 8) and
scale factor 1/2. -/
theorem c5_standard_bucket_formulas_witness :
    (((8 : ℤ), (8 : ℤ)) = get_bucket_for_image_size 16 16 itemStd.dataset_config.resolution
      itemStd.dataset_config.bucket_tolerance) ∧
    ((bucket_item_geometry itemStd rng0).1.scale_to_width =
        ⌈((16 : ℤ) : ℚ) * max (pydiv 8 16) (pydiv 8 16)⌉ ∧
      (bucket_item_geometry itemStd rng0).1.scale_to_height =
        ⌈((16 : ℤ) : ℚ) * max (pydiv 8 16) (pydiv 8 16)⌉ ∧
      (8 : ℤ) ≤ (bucket_item_geometry itemStd rng0).1.scale_to_width ∧
      (8 : ℤ) ≤ (bucket_item_geometry itemStd rng0).1.scale_to_height ∧
      (itemStd.dataset_config.random_crop = true →
        (0 ≤ (bucket_item_geometry itemStd rng0).1.crop_x ∧
         (bucket_item_geometry itemStd rng0).1.crop_x ≤
           ⌈((16 : ℤ) : ℚ) * max (pydiv 8 16) (pydiv 8 16)⌉ - 8 ∧
         0 ≤ (bucket_item_geometry itemStd rng0).1.crop_y ∧
         (bucket_item_geometry itemStd rng0).1.crop_y ≤
           ⌈((16 : ℤ) : ℚ) * max (pydiv 8 16) (pydiv 8 16)⌉ - 8) ∧
        (∀ v u : ℤ, 0 ≤ v → v ≤ ⌈((16 : ℤ) : ℚ) * max (pydiv 8 16) (pydiv 8 16)⌉ - 8 →
          0 ≤ u → u ≤ ⌈((16 : ℤ) : ℚ) * max (pydiv 8 16) (pydiv 8 16)⌉ - 8 →
          ∃ rng1 : Rng, (bucket_item_geometry itemStd rng1).1.crop_x = v ∧
            (bucket_item_geometry itemStd rng1).1.crop_y = u)) ∧
      (itemStd.dataset_config.random_crop = false →
        (bucket_item_geometry itemStd rng0).1.crop_x =
          ⌊((⌈((16 : ℤ) : ℚ) * max (pydiv 8 16) (pydiv 8 16)⌉ - 8 : ℤ) : ℚ) / 2⌋ ∧
        (bucket_item_geometry itemStd rng0).1.crop_y =
          ⌊((⌈((16 : ℤ) : ℚ) * max (pydiv 8 16) (pydiv 8 16)⌉ - 8 : ℤ) : ℚ) / 2⌋)) := by
  constructor
  · exact get_bucket_16
  · exact c5_standard_bucket_formulas itemStd rng0 16 16 8 8
      (max (pydiv 8 16) (pydiv 8 16))
      (by show (16 : ℤ) = pyInt ((16 : ℚ) * 1); rw [pyInt_of_nonneg (by norm_num)]; norm_num)
      (by show (16 : ℤ) = pyInt ((16 : ℚ) * 1); rw [pyInt_of_nonneg (by norm_num)]; norm_num)
      get_bucket_16 rfl (by norm_num) (by norm_num)

/-- C9: `setup_poi_bucket` returns `false` immediately (no search, oracle
untouched) when the scaled resolution is at or below the target; the
search makes at most 101 attempts (100 retries after the first); and on
exhaustion the function returns `false` with the item unchanged instead of
raising. -/
theorem c9_poi_search_bounded (item : FileItem) (rng : Rng) :
    (get_resolution (pyInt ((item.width : ℚ) * item.dataset_config.scale))
        (pyInt ((item.height : ℚ) * item.dataset_config.scale)) ≤
        item.dataset_config.resolution →
      setup_poi_bucket item rng = (false, item, rng)) ∧
    ((poiSearchLoop item.dataset_config.resolution
        (pyInt ((item.width : ℚ) * item.dataset_config.scale))
        (pyInt ((item.height : ℚ) * item.dataset_config.scale)) 101
        (pyInt ((item.poi_x : ℚ) * item.dataset_config.scale))
        (pyInt ((item.poi_y : ℚ) * item.dataset_config.scale))
        (pyInt ((item.poi_width : ℚ) * item.dataset_config.scale))
        (pyInt ((item.poi_height : ℚ) * item.dataset_config.scale)) rng).2.2 ≤ 101) ∧
    (∀ (rng1 : Rng) (n : ℕ),
      ¬ get_resolution (pyInt ((item.width : ℚ) * item.dataset_config.scale))
          (pyInt ((item.height : ℚ) * item.dataset_config.scale)) ≤
          item.dataset_config.resolution →
      poiSearchLoop item.dataset_config.resolution
        (pyInt ((item.width : ℚ) * item.dataset_config.scale))
        (pyInt ((item.height : ℚ) * item.dataset_config.scale)) 101
        (pyInt ((item.poi_x : ℚ) * item.dataset_config.scale))
        (pyInt ((item.poi_y : ℚ) * item.dataset_config.scale))
        (pyInt ((item.poi_width : ℚ) * item.dataset_config.scale))
        (pyInt ((item.poi_height : ℚ) * item.dataset_config.scale)) rng = (none, rng1, n) →
      setup_poi_bucket item rng = (false, item, rng1)) := by
  refine ⟨?_, ?_, ?_⟩
  · intro hearly
    unfold setup_poi_bucket
    dsimp only
    rw [if_pos hearly]
  · exact poiSearchLoop_count 101 _ _ _ _ rng
  · intro rng1 n hlate hloop
    unfold setup_poi_bucket
    dsimp only
    rw [if_neg hlate, hloop]

theorem get_resolution_4 : get_resolution 4 4 = 4 := by
  have := get_resolution_eval (w := 4) (h := 4) (r := 4) (by norm_num) (by norm_num)
  exact_mod_cast this

theorem get_resolution_1 : get_resolution 1 1 = 1 := by
  have := get_resolution_eval (w := 1) (h := 1) (r := 1) (by norm_num) (by norm_num)
  exact_mod_cast this

theorem pyInt_lit {a : ℤ} (ha : 0 ≤ a) : pyInt ((a : ℚ) * 1) = a := by
  rw [mul_one, pyInt_of_nonneg (by exact_mod_cast ha)]
  exact Int.floor_intCast a

theorem poiLoop_stuck (f : ℕ) : ∀ p : ℕ,
    poiSearchLoop 50 100 100 f 0 0 1 1 { seq := fun _ => 0, pos := p } =
      (none, { seq := fun _ => 0, pos := p + 2 * f }, f) := by
  induction f with
  | zero =>
    intro p
    simp [poiSearchLoop]
  | succ f ih =>
    intro p
    unfold poiSearchLoop poiIterate poiAxis randint
    norm_num [get_resolution_1]
    have harith : p + 1 + 1 + 2 * f = p + 2 * (f + 1) := by omega
    rw [ih (p + 1 + 1), harith]
    exact ⟨rfl, rfl, rfl⟩

theorem get_resolution_100 : get_resolution 100 100 = 100 := by
  have := get_resolution_eval (w := 100) (h := 100) (r := 100) (by norm_num) (by norm_num)
  exact_mod_cast this

/-- Witness for C9: a 4×4 item is at or below the target resolution and
exits early; and a 100×100 item whose region never reaches resolution 50
under the all-zeros oracle exhausts all 101 attempts and falls back. -/
theorem c9_poi_search_bounded_witness :
    (get_resolution (pyInt ((itemSmall.width : ℚ) * itemSmall.dataset_config.scale))
        (pyInt ((itemSmall.height : ℚ) * itemSmall.dataset_config.scale)) ≤
        itemSmall.dataset_config.resolution ∧
      setup_poi_bucket itemSmall rng0 = (false, itemSmall, rng0)) ∧
    ((poiSearchLoop itemStd.dataset_config.resolution
        (pyInt ((itemStd.width : ℚ) * itemStd.dataset_config.scale))
        (pyInt ((itemStd.height : ℚ) * itemStd.dataset_config.scale)) 101
        (pyInt ((itemStd.poi_x : ℚ) * itemStd.dataset_config.scale))
        (pyInt ((itemStd.poi_y : ℚ) * itemStd.dataset_config.scale))
        (pyInt ((itemStd.poi_width : ℚ) * itemStd.dataset_config.scale))
        (pyInt ((itemStd.poi_height : ℚ) * itemStd.dataset_config.scale)) rng0).2.2 ≤ 101) ∧
    (¬ get_resolution (pyInt ((itemPoiStuck.width : ℚ) * itemPoiStuck.dataset_config.scale))
        (pyInt ((itemPoiStuck.height : ℚ) * itemPoiStuck.dataset_config.scale)) ≤
        itemPoiStuck.dataset_config.resolution ∧
      setup_poi_bucket itemPoiStuck rng0 =
        (false, itemPoiStuck, { seq := fun _ => 0, pos := 202 })) := by
  have hsmall : get_resolution (pyInt ((itemSmall.width : ℚ) * itemSmall.dataset_config.scale))
      (pyInt ((itemSmall.height : ℚ) * itemSmall.dataset_config.scale)) ≤
      itemSmall.dataset_config.resolution := by
    simp only [itemSmall, itemStd, cfgStd]
    rw [pyInt_lit (by norm_num), get_resolution_4]
    norm_num
  have hlate : ¬ get_resolution
      (pyInt ((itemPoiStuck.width : ℚ) * itemPoiStuck.dataset_config.scale))
      (pyInt ((itemPoiStuck.height : ℚ) * itemPoiStuck.dataset_config.scale)) ≤
      itemPoiStuck.dataset_config.resolution := by
    simp only [itemPoiStuck, itemStd, cfgPoi, cfgStd]
    rw [pyInt_lit (by norm_num), get_resolution_100]
    norm_num
  have hloop : poiSearchLoop itemPoiStuck.dataset_config.resolution
      (pyInt ((itemPoiStuck.width : ℚ) * itemPoiStuck.dataset_config.scale))
      (pyInt ((itemPoiStuck.height : ℚ) * itemPoiStuck.dataset_config.scale)) 101
      (pyInt ((itemPoiStuck.poi_x : ℚ) * itemPoiStuck.dataset_config.scale))
      (pyInt ((itemPoiStuck.poi_y : ℚ) * itemPoiStuck.dataset_config.scale))
      (pyInt ((itemPoiStuck.poi_width : ℚ) * itemPoiStuck.dataset_config.scale))
      (pyInt ((itemPoiStuck.poi_height : ℚ) * itemPoiStuck.dataset_config.scale)) rng0 =
      (none, { seq := fun _ => 0, pos := 202 }, 101) := by
    simp only [itemPoiStuck, itemStd, cfgPoi, cfgStd]
    rw [pyInt_lit (by norm_num), pyInt_lit (by norm_num), pyInt_lit (by norm_num)]
    show poiSearchLoop 50 100 100 101 0 0 1 1 { seq := fun _ => 0, pos := 0 } =
      (none, { seq := fun _ => 0, pos := 202 }, 101)
    rw [show (202 : ℕ) = 0 + 2 * 101 by norm_num]
    exact poiLoop_stuck 101 0
  refine ⟨⟨hsmall, (c9_poi_search_bounded itemSmall rng0).1 hsmall⟩,
    (c9_poi_search_bounded itemStd rng0).2.1,
    hlate, (c9_poi_search_bounded itemPoiStuck rng0).2.2 _ 101 hlate hloop⟩

theorem crop_left_edge {px1 px0 W : ℤ} {m : ℚ} (hpx1 : 0 ≤ px1) (hle : px1 ≤ px0)
    (hW : 1 ≤ W) (hm0 : 0 ≤ m) :
    ((pyInt ((px1 : ℚ) * m) : ℤ) : ℚ) ≤ (px0 : ℚ) * ((⌈(W : ℚ) * m⌉ : ℤ) : ℚ) / (W : ℚ) := by
  have hW0 : (0 : ℚ) < (W : ℚ) := by exact_mod_cast hW
  have hpx0 : (0 : ℤ) ≤ px0 := le_trans hpx1 hle
  have hx1m : (0 : ℚ) ≤ (px1 : ℚ) * m := mul_nonneg (by exact_mod_cast hpx1) hm0
  rw [pyInt_of_nonneg hx1m]
  have h1 : ((⌊(px1 : ℚ) * m⌋ : ℤ) : ℚ) ≤ (px1 : ℚ) * m := Int.floor_le _
  have h2 : (px1 : ℚ) * m ≤ (px0 : ℚ) * m :=
    mul_le_mul_of_nonneg_right (by exact_mod_cast hle) hm0
  have h3 : m ≤ ((⌈(W : ℚ) * m⌉ : ℤ) : ℚ) / (W : ℚ) := by
    rw [le_div_iff₀ hW0]
    calc m * (W : ℚ) = (W : ℚ) * m := mul_comm _ _
      _ ≤ ((⌈(W : ℚ) * m⌉ : ℤ) : ℚ) := Int.le_ceil _
  have h4 : (px0 : ℚ) * m ≤ (px0 : ℚ) * (((⌈(W : ℚ) * m⌉ : ℤ) : ℚ) / (W : ℚ)) :=
    mul_le_mul_of_nonneg_left h3 (by exact_mod_cast hpx0)
  have h5 : (px0 : ℚ) * (((⌈(W : ℚ) * m⌉ : ℤ) : ℚ) / (W : ℚ)) =
      (px0 : ℚ) * ((⌈(W : ℚ) * m⌉ : ℤ) : ℚ) / (W : ℚ) := (mul_div_assoc _ _ _).symm
  linarith

/-- C2 (amended): on a successful PoI search the final crop's left/top
edge lies at or before the scaled region's left/top edge, and the search
window always starts at or before the region's lower bounds and is at
least as wide and tall as the region; containment of the region's
right/bottom edge is not guaranteed. -/
theorem c2_poi_partial_containment (item : FileItem) (rng : Rng) (it1 : FileItem) (rng1 : Rng)
    (hw : 1 ≤ pyInt ((item.width : ℚ) * item.dataset_config.scale))
    (hh2 : 1 ≤ pyInt ((item.height : ℚ) * item.dataset_config.scale))
    (hd : 1 ≤ item.dataset_config.bucket_tolerance)
    (hres : 1 ≤ item.dataset_config.resolution)
    (hs : 0 ≤ item.dataset_config.scale)
    (hpx : 0 ≤ item.poi_x) (hpy : 0 ≤ item.poi_y)
    (hpw : 0 ≤ item.poi_width) (hph : 0 ≤ item.poi_height)
    (hxw : item.poi_x + item.poi_width ≤ item.width)
    (hyh : item.poi_y + item.poi_height ≤ item.height)
    (h : setup_poi_bucket item rng = (true, it1, rng1)) :
    ((it1.crop_x : ℚ) ≤ (pyInt ((item.poi_x : ℚ) * item.dataset_config.scale) : ℚ) *
        (it1.scale_to_width : ℚ) /
        (pyInt ((item.width : ℚ) * item.dataset_config.scale) : ℚ)) ∧
    ((it1.crop_y : ℚ) ≤ (pyInt ((item.poi_y : ℚ) * item.dataset_config.scale) : ℚ) *
        (it1.scale_to_height : ℚ) /
        (pyInt ((item.height : ℚ) * item.dataset_config.scale) : ℚ)) ∧
    (∃ (px1 py1 pw1 ph1 : ℤ) (rng2 : Rng) (k : ℕ),
      poiSearchLoop item.dataset_config.resolution
          (pyInt ((item.width : ℚ) * item.dataset_config.scale))
          (pyInt ((item.height : ℚ) * item.dataset_config.scale)) 101
          (pyInt ((item.poi_x : ℚ) * item.dataset_config.scale))
          (pyInt ((item.poi_y : ℚ) * item.dataset_config.scale))
          (pyInt ((item.poi_width : ℚ) * item.dataset_config.scale))
          (pyInt ((item.poi_height : ℚ) * item.dataset_config.scale)) rng =
        (some (px1, py1, pw1, ph1), rng2, k) ∧
      px1 ≤ pyInt ((item.poi_x : ℚ) * item.dataset_config.scale) ∧
      py1 ≤ pyInt ((item.poi_y : ℚ) * item.dataset_config.scale) ∧
      pyInt ((item.poi_width : ℚ) * item.dataset_config.scale) ≤ pw1 ∧
      pyInt ((item.poi_height : ℚ) * item.dataset_config.scale) ≤ ph1) := by
  unfold setup_poi_bucket at h
  dsimp only at h
  set W := pyInt ((item.width : ℚ) * item.dataset_config.scale) with hWdef
  set H := pyInt ((item.height : ℚ) * item.dataset_config.scale) with hHdef
  set px0 := pyInt ((item.poi_x : ℚ) * item.dataset_config.scale) with hpx0def
  set py0 := pyInt ((item.poi_y : ℚ) * item.dataset_config.scale) with hpy0def
  set pw0 := pyInt ((item.poi_width : ℚ) * item.dataset_config.scale) with hpw0def
  set ph0 := pyInt ((item.poi_height : ℚ) * item.dataset_config.scale) with hph0def
  by_cases hearly : get_resolution W H ≤ item.dataset_config.resolution
  · rw [if_pos hearly] at h
    simp only [Prod.mk.injEq] at h
    exact absurd h.1 (by simp)
  · rw [if_neg hearly] at h
    rcases hloop : poiSearchLoop item.dataset_config.resolution W H 101 px0 py0 pw0 ph0 rng
      with ⟨r0, rng0, n0⟩
    rw [hloop] at h
    cases r0 with
    | none =>
      dsimp only at h
      simp only [Prod.mk.injEq] at h
      exact absurd h.1 (by simp)
    | some win =>
      rcases win with ⟨px1, py1, pw1, ph1⟩
      dsimp only at h
      simp only [Prod.mk.injEq] at h
      obtain ⟨-, hit, -⟩ := h
      subst hit
      have hWx : px0 + pw0 ≤ W := pyInt_mul_add_le hpx hpw hs hxw
      have hHy : py0 + ph0 ≤ H := pyInt_mul_add_le hpy hph hs hyh
      have hwin := poiSearchLoop_success 101 px0 py0 pw0 ph0 rng
        (pyInt_mul_nonneg hpx hs) (pyInt_mul_nonneg hpy hs)
        (pyInt_mul_nonneg hpw hs) (pyInt_mul_nonneg hph hs) hWx hHy hloop
      obtain ⟨hx1, hx2, hy1, hy2, hw1, hh1, hxl, hyl, hrc⟩ := hwin
      have hpw0n : 0 ≤ pw0 := pyInt_mul_nonneg hpw hs
      have hph0n : 0 ≤ ph0 := pyInt_mul_nonneg hph hs
      have hdim := get_resolution_pos hres hrc (by omega) (by omega)
      have hbw := @get_bucket_width_pos pw1 ph1
        item.dataset_config.resolution item.dataset_config.bucket_tolerance hd
      have hbh := @get_bucket_height_pos pw1 ph1
        item.dataset_config.resolution item.dataset_config.bucket_tolerance hd
      have hmw : (0 : ℚ) < pydiv (get_bucket_for_image_size pw1 ph1
          item.dataset_config.resolution item.dataset_config.bucket_tolerance).1 pw1 := by
        rw [pydiv_eq]
        apply div_pos
        · exact_mod_cast hbw
        · exact_mod_cast hdim.1
      have hm0 : (0 : ℚ) ≤ max
          (pydiv (get_bucket_for_image_size pw1 ph1 item.dataset_config.resolution
            item.dataset_config.bucket_tolerance).1 pw1)
          (pydiv (get_bucket_for_image_size pw1 ph1 item.dataset_config.resolution
            item.dataset_config.bucket_tolerance).2 ph1) :=
        le_trans hmw.le (le_max_left _ _)
      refine ⟨?_, ?_, px1, py1, pw1, ph1, rng0, n0, rfl, hx2, hy2, hw1, hh1⟩
      · exact crop_left_edge hx1 (le_trans hx2 (le_refl px0)) hw hm0
      · exact crop_left_edge hy1 (le_trans hy2 (le_refl py0)) hh2 hm0

theorem get_resolution_34 : get_resolution 12 100 = 34 := by
  have := get_resolution_eval (w := 12) (h := 100) (r := 34) (by norm_num) (by norm_num)
  exact_mod_cast this

theorem evalBucketC : get_bucket_for_image_size 12 100 10 1 = (3, 29) := by
  unfold get_bucket_for_image_size
  dsimp only
  rw [get_resolution_34, max_eq_right (by norm_num : (1 : ℤ) ≤ 34)]
  have hs : pydiv 10 34 = (5 : ℚ) / 17 := by
    rw [pydiv_eq]
    norm_num
  rw [hs]
  have hb : pyInt (((12 : ℤ) : ℚ) * (5 / 17)) = 3 := by
    rw [pyInt_of_nonneg (by norm_num)]
    norm_num
  have hb2 : pyInt (((100 : ℤ) : ℚ) * (5 / 17)) = 29 := by
    rw [pyInt_of_nonneg (by norm_num)]
    norm_num
  rw [hb, hb2]
  unfold roundToMultiple
  norm_num

theorem evalIterC : poiIterate 100 100 50 0 10 100 rngC = (0, 0, 12, 100, rngC2) := by
  unfold poiIterate poiAxis randint rngC rngC2
  norm_num

theorem poiSearchLoop_succ_of_success {res W H px py pw ph : ℤ} {rng : Rng}
    {qx qy qw qh : ℤ} {qrng : Rng} (f : ℕ)
    (hiter : poiIterate W H px py pw ph rng = (qx, qy, qw, qh, qrng))
    (hres : res ≤ get_resolution qw qh) :
    poiSearchLoop res W H (f + 1) px py pw ph rng = (some (qx, qy, qw, qh), qrng, 1) := by
  unfold poiSearchLoop
  rw [hiter]
  dsimp only
  rw [if_pos hres]

theorem evalLoopC : poiSearchLoop 10 100 100 101 50 0 10 100 rngC =
    (some (0, 0, 12, 100), rngC2, 1) := by
  rw [show (101 : ℕ) = 100 + 1 from rfl]
  exact poiSearchLoop_succ_of_success 100 evalIterC (by rw [get_resolution_34]; norm_num)

theorem evalSetupPoiC : setup_poi_bucket itemPoiC rngC = (true, itemPoiCResult, rngC2) := by
  have h100 : pyInt (((100 : ℤ) : ℚ) * 1) = 100 := pyInt_lit (by norm_num)
  have h50 : pyInt (((50 : ℤ) : ℚ) * 1) = 50 := pyInt_lit (by norm_num)
  have h10 : pyInt (((10 : ℤ) : ℚ) * 1) = 10 := pyInt_lit (by norm_num)
  have h0 : pyInt (((0 : ℤ) : ℚ) * 1) = 0 := pyInt_lit (by norm_num)
  unfold setup_poi_bucket
  simp only [itemPoiC, itemStd, cfgPoiC, cfgStd]
  rw [h100, h50, h10, h0]
  rw [if_neg (by rw [get_resolution_100]; norm_num)]
  rw [evalLoopC]
  dsimp only
  rw [evalBucketC]
  dsimp only
  have hm : max (pydiv 3 12) (pydiv 29 100) = (29 : ℚ) / 100 := by
    rw [pydiv_eq, pydiv_eq, max_eq_right (by norm_num)]
    norm_num
  rw [hm]
  have hstw : ⌈((100 : ℤ) : ℚ) * ((29 : ℚ) / 100)⌉ = 29 := by norm_num
  have hcx : pyInt (((0 : ℤ) : ℚ) * ((29 : ℚ) / 100)) = 0 := by
    rw [pyInt_of_nonneg (by norm_num)]
    norm_num
  rw [hstw, hcx]
  simp [itemPoiCResult, itemPoiC, itemStd, cfgPoiC, cfgStd]

/-- C2 counterexample: at a 100×100 item with region (50, 0, 10, 100),
target resolution 10, the search succeeds with window (0, 0, 12, 100) and
the final crop `[0, 3) × [0, 29)` of the 29×29 scaled image misses the
scaled region `[14.5, 17.4) × [0, 29)` — the crop does not contain it. -/
theorem c2_poi_containment_counterexample :
    setup_poi_bucket itemPoiC rngC = (true, itemPoiCResult, rngC2) ∧
    ¬ poiCropContainsScaledRegion itemPoiC itemPoiCResult := by
  have h100 : pyInt (((100 : ℤ) : ℚ) * 1) = 100 := pyInt_lit (by norm_num)
  have h50 : pyInt (((50 : ℤ) : ℚ) * 1) = 50 := pyInt_lit (by norm_num)
  have h10 : pyInt (((10 : ℤ) : ℚ) * 1) = 10 := pyInt_lit (by norm_num)
  refine ⟨evalSetupPoiC, ?_⟩
  intro hcontain
  obtain ⟨-, hx2, -, -⟩ := hcontain
  simp only [itemPoiC, itemPoiCResult, itemStd, cfgPoiC, cfgStd] at hx2
  rw [h100, h50, h10] at hx2
  norm_num at hx2

/-- Witness for the amended C2: the hypotheses hold at the concrete
100×100 item with region (50, 0, 10, 100), and the partial-containment
conclusion follows for its successful search. -/
theorem c2_poi_partial_containment_witness :
    (setup_poi_bucket itemPoiC rngC = (true, itemPoiCResult, rngC2)) ∧
    (((itemPoiCResult.crop_x : ℚ) ≤
        (pyInt ((itemPoiC.poi_x : ℚ) * itemPoiC.dataset_config.scale) : ℚ) *
        (itemPoiCResult.scale_to_width : ℚ) /
        (pyInt ((itemPoiC.width : ℚ) * itemPoiC.dataset_config.scale) : ℚ)) ∧
      ((itemPoiCResult.crop_y : ℚ) ≤
        (pyInt ((itemPoiC.poi_y : ℚ) * itemPoiC.dataset_config.scale) : ℚ) *
        (itemPoiCResult.scale_to_height : ℚ) /
        (pyInt ((itemPoiC.height : ℚ) * itemPoiC.dataset_config.scale) : ℚ)) ∧
      (∃ (px1 py1 pw1 ph1 : ℤ) (rng2 : Rng) (k : ℕ),
        poiSearchLoop itemPoiC.dataset_config.resolution
            (pyInt ((itemPoiC.width : ℚ) * itemPoiC.dataset_config.scale))
            (pyInt ((itemPoiC.height : ℚ) * itemPoiC.dataset_config.scale)) 101
            (pyInt ((itemPoiC.poi_x : ℚ) * itemPoiC.dataset_config.scale))
            (pyInt ((itemPoiC.poi_y : ℚ) * itemPoiC.dataset_config.scale))
            (pyInt ((itemPoiC.poi_width : ℚ) * itemPoiC.dataset_config.scale))
            (pyInt ((itemPoiC.poi_height : ℚ) * itemPoiC.dataset_config.scale)) rngC =
          (some (px1, py1, pw1, ph1), rng2, k) ∧
        px1 ≤ pyInt ((itemPoiC.poi_x : ℚ) * itemPoiC.dataset_config.scale) ∧
        py1 ≤ pyInt ((itemPoiC.poi_y : ℚ) * itemPoiC.dataset_config.scale) ∧
        pyInt ((itemPoiC.poi_width : ℚ) * itemPoiC.dataset_config.scale) ≤ pw1 ∧
        pyInt ((itemPoiC.poi_height : ℚ) * itemPoiC.dataset_config.scale) ≤ ph1)) := by
  refine ⟨evalSetupPoiC, ?_⟩
  exact c2_poi_partial_containment itemPoiC rngC itemPoiCResult rngC2
    (by simp only [itemPoiC, itemStd, cfgPoiC, cfgStd]
        rw [pyInt_lit (by norm_num)]
        norm_num)
    (by simp only [itemPoiC, itemStd, cfgPoiC, cfgStd]
        rw [pyInt_lit (by norm_num)]
        norm_num)
    (by norm_num [itemPoiC, itemStd, cfgPoiC, cfgStd])
    (by norm_num [itemPoiC, itemStd, cfgPoiC, cfgStd])
    (by norm_num [itemPoiC, itemStd, cfgPoiC, cfgStd])
    (by norm_num [itemPoiC, itemStd])
    (by norm_num [itemPoiC, itemStd])
    (by norm_num [itemPoiC, itemStd])
    (by norm_num [itemPoiC, itemStd])
    (by norm_num [itemPoiC, itemStd])
    (by norm_num [itemPoiC, itemStd])
    evalSetupPoiC

theorem BucketsInv.append_item {items : List FileItem} {buckets : List (String × Bucket)}
    (hinv : BucketsInv items buckets) (x : FileItem) :
    BucketsInv (items ++ [x]) buckets := by
  intro kb hkb
  obtain ⟨hkey, hmem⟩ := hinv kb hkb
  refine ⟨hkey, fun i hi => ?_⟩
  obtain ⟨hlt, hw, hh⟩ := hmem i hi
  refine ⟨by simp; omega, ?_, ?_⟩
  · rw [List.get_eq_getElem, List.getElem_append_left hlt]
    rw [List.get_eq_getElem] at hw
    exact hw
  · rw [List.get_eq_getElem, List.getElem_append_left hlt]
    rw [List.get_eq_getElem] at hh
    exact hh

theorem BucketsInv.insert {items : List FileItem} {buckets : List (String × Bucket)}
    (hinv : BucketsInv items buckets) (x : FileItem) :
    BucketsInv (items ++ [x])
      (bucketsInsert buckets (mkBucketKey x.crop_width x.crop_height)
        x.crop_width x.crop_height items.length) := by
  have hget : (items ++ [x]).get ⟨items.length, by simp⟩ = x := by
    simp [List.get_eq_getElem, List.getElem_concat_length]
  unfold bucketsInsert
  by_cases hlk : (buckets.lookup (mkBucketKey x.crop_width x.crop_height)).isSome
  · rw [if_pos hlk]
    intro kb hkb
    rw [List.mem_map] at hkb
    obtain ⟨kb0, hkb0, hmap⟩ := hkb
    obtain ⟨hkey0, hmem0⟩ := hinv kb0 hkb0
    by_cases hkeq : kb0.1 = mkBucketKey x.crop_width x.crop_height
    · rw [if_pos hkeq] at hmap
      have hwh := mkBucketKey_inj (hkey0.symm.trans hkeq)
      subst hmap
      refine ⟨hkey0, fun i hi => ?_⟩
      dsimp only at hi
      rw [List.mem_append, List.mem_singleton] at hi
      rcases hi with hi | hi
      · obtain ⟨hlt, hw, hh⟩ := hmem0 i hi
        refine ⟨by simp; omega, ?_, ?_⟩
        · rw [List.get_eq_getElem, List.getElem_append_left hlt]
          rw [List.get_eq_getElem] at hw
          exact hw
        · rw [List.get_eq_getElem, List.getElem_append_left hlt]
          rw [List.get_eq_getElem] at hh
          exact hh
      · subst hi
        refine ⟨by simp, ?_, ?_⟩
        · rw [hget]
          exact hwh.1.symm
        · rw [hget]
          exact hwh.2.symm
    · rw [if_neg hkeq] at hmap
      subst hmap
      exact (hinv.append_item x) kb0 hkb0
  · rw [if_neg hlk]
    intro kb hkb
    rw [List.mem_append, List.mem_singleton] at hkb
    rcases hkb with hkb | hkb
    · exact (hinv.append_item x) kb hkb
    · subst hkb
      refine ⟨rfl, fun i hi => ?_⟩
      rw [List.mem_singleton] at hi
      subst hi
      exact ⟨by simp, by rw [hget], by rw [hget]⟩

theorem setup_buckets_fold_inv :
    ∀ (rest : List FileItem) (done : List FileItem) (buckets : List (String × Bucket))
      (rng : Rng),
    BucketsInv done buckets →
    BucketsInv (setup_buckets_fold rest done.length done buckets rng).1
      (setup_buckets_fold rest done.length done buckets rng).2.1 := by
  intro rest
  induction rest with
  | nil =>
    intro done buckets rng hinv
    exact hinv
  | cons it rest ih =>
    intro done buckets rng hinv
    unfold setup_buckets_fold
    dsimp only
    have hstep := hinv.insert (setup_buckets_item it rng).1
    have hlen : (done ++ [(setup_buckets_item it rng).1]).length = done.length + 1 := by
      simp
    have := ih (done ++ [(setup_buckets_item it rng).1])
      (bucketsInsert buckets
        (mkBucketKey (setup_buckets_item it rng).1.crop_width
          (setup_buckets_item it rng).1.crop_height)
        (setup_buckets_item it rng).1.crop_width
        (setup_buckets_item it rng).1.crop_height done.length)
      (setup_buckets_item it rng).2 hstep
    rw [hlen] at this
    exact this

theorem shuffle_buckets_inv {items : List FileItem}
    (shuffle : Rng → List ℕ → List ℕ × Rng)
    (hshuffle : ∀ (r : Rng) (l : List ℕ), ((shuffle r l).1).Perm l) :
    ∀ (buckets : List (String × Bucket)) (rng : Rng),
    BucketsInv items buckets →
    BucketsInv items (shuffle_buckets shuffle buckets rng).1 := by
  intro buckets
  induction buckets with
  | nil =>
    intro rng hinv
    intro kb hkb
    simp [shuffle_buckets] at hkb
  | cons kb0 rest ih =>
    intro rng hinv
    unfold shuffle_buckets
    dsimp only
    intro kb hkb
    rw [List.mem_cons] at hkb
    rcases hkb with hkb | hkb
    · subst hkb
      obtain ⟨hkey, hmem⟩ := hinv kb0 (List.mem_cons_self _ _)
      refine ⟨hkey, fun i hi => ?_⟩
      dsimp only at hi
      exact hmem i ((hshuffle rng kb0.2.file_list_idx).mem_iff.mp hi)
    · exact ih (shuffle rng kb0.2.file_list_idx).2
        (fun kb2 hkb2 => hinv kb2 (List.mem_cons_of_mem _ hkb2)) kb hkb

/-- C4: after `setup_buckets` completes (with `random.shuffle` abstracted
as any permutation-producing oracle), every bucket's key encodes its own
size, every member item's crop size equals the bucket's size, and hence
any two item indices in the same bucket have identical `crop_width` and
`crop_height`, equal to the bucket's width and height. -/
theorem c4_bucket_homogeneous (shuffle : Rng → List ℕ → List ℕ × Rng)
    (hshuffle : ∀ (r : Rng) (l : List ℕ), ((shuffle r l).1).Perm l)
    (items : List FileItem) (rng : Rng) :
    (∀ kb ∈ (setup_buckets shuffle items rng).2.1,
      kb.1 = mkBucketKey kb.2.width kb.2.height ∧
      ∀ i ∈ kb.2.file_list_idx, ∃ hi : i < (setup_buckets shuffle items rng).1.length,
        ((setup_buckets shuffle items rng).1.get ⟨i, hi⟩).crop_width = kb.2.width ∧
        ((setup_buckets shuffle items rng).1.get ⟨i, hi⟩).crop_height = kb.2.height) ∧
    (∀ kb ∈ (setup_buckets shuffle items rng).2.1,
      ∀ i ∈ kb.2.file_list_idx, ∀ j ∈ kb.2.file_list_idx,
      ∃ (hi : i < (setup_buckets shuffle items rng).1.length)
        (hj : j < (setup_buckets shuffle items rng).1.length),
        ((setup_buckets shuffle items rng).1.get ⟨i, hi⟩).crop_width =
          ((setup_buckets shuffle items rng).1.get ⟨j, hj⟩).crop_width ∧
        ((setup_buckets shuffle items rng).1.get ⟨i, hi⟩).crop_height =
          ((setup_buckets shuffle items rng).1.get ⟨j, hj⟩).crop_height ∧
        ((setup_buckets shuffle items rng).1.get ⟨i, hi⟩).crop_width = kb.2.width ∧
        ((setup_buckets shuffle items rng).1.get ⟨i, hi⟩).crop_height = kb.2.height) := by
  have hfold := setup_buckets_fold_inv items [] [] rng (by intro kb hkb; simp at hkb)
  have hinv : BucketsInv (setup_buckets shuffle items rng).1
      (setup_buckets shuffle items rng).2.1 := by
    unfold setup_buckets
    dsimp only
    exact shuffle_buckets_inv shuffle hshuffle _ _ hfold
  refine ⟨hinv, ?_⟩
  intro kb hkb i hi j hj
  obtain ⟨hkey, hmem⟩ := hinv kb hkb
  obtain ⟨hilt, hiw, hih⟩ := hmem i hi
  obtain ⟨hjlt, hjw, hjh⟩ := hmem j hj
  exact ⟨hilt, hjlt, by rw [hiw, hjw], by rw [hih, hjh], hiw, hih⟩

/-- Witness for C4: the identity shuffle is a permutation oracle, and the
conclusion holds for the one-item list at the all-zeros oracle. -/
theorem c4_bucket_homogeneous_witness :
    (∀ (r : Rng) (l : List ℕ), (((fun (r : Rng) (l : List ℕ) => (l, r)) r l).1).Perm l) ∧
    (∀ kb ∈ (setup_buckets (fun (r : Rng) (l : List ℕ) => (l, r)) [itemStd] rng0).2.1,
      kb.1 = mkBucketKey kb.2.width kb.2.height ∧
      ∀ i ∈ kb.2.file_list_idx,
        ∃ hi : i < (setup_buckets (fun (r : Rng) (l : List ℕ) => (l, r)) [itemStd] rng0).1.length,
        ((setup_buckets (fun (r : Rng) (l : List ℕ) => (l, r)) [itemStd] rng0).1.get
          ⟨i, hi⟩).crop_width = kb.2.width ∧
        ((setup_buckets (fun (r : Rng) (l : List ℕ) => (l, r)) [itemStd] rng0).1.get
          ⟨i, hi⟩).crop_height = kb.2.height) := by
  constructor
  · intro r l
    exact List.Perm.refl l
  · exact (c4_bucket_homogeneous (fun r l => (l, r)) (fun r l => List.Perm.refl l)
      [itemStd] rng0).1

theorem map_fst_insertSortedPair (p : String × JVal) (l : List (String × JVal)) :
    (insertSortedPair p l).map Prod.fst = insertSortedStr p.1 (l.map Prod.fst) := by
  induction l with
  | nil => rfl
  | cons q qs ih =>
    unfold insertSortedPair insertSortedStr
    by_cases hc : strLe p.1 q.1
    · simp [hc]
    · simp [hc, ih]

theorem map_fst_sortPairs (l : List (String × JVal)) :
    (sortPairs l).map Prod.fst = sortStrs (l.map Prod.fst) := by
  induction l with
  | nil => rfl
  | cons p ps ih =>
    unfold sortPairs sortStrs at ih ⊢
    simp only [List.foldr_cons, List.map_cons]
    rw [map_fst_insertSortedPair, ih]

/-- C1 counterexample: two items with identical
(filename, geometry, versions, flips) tuples but different source
directories produce different cache paths — the path is not a function of
the hashed tuple alone. -/
theorem c1_latent_path_counterexample :
    latentTuple itemCacheA = latentTuple itemCacheB ∧
    get_latent_path (fun s => s) itemCacheA ≠ get_latent_path (fun s => s) itemCacheB := by
  constructor
  · rfl
  · decide

/-- C1 (amended): the cache path is a deterministic function of the
item's directory together with the hashed tuple — equal directories and
equal tuples give equal paths for any digest; the serialized dict carries
the `flip_x` / `flip_y` keys exactly when the flags are true; and the
serialization orders the keys canonically (sorted). -/
theorem c1_latent_path_determinism (digest : String → String) (i1 i2 : FileItem) :
    (i1.path_dir = i2.path_dir → latentTuple i1 = latentTuple i2 →
      get_latent_path digest i1 = get_latent_path digest i2) ∧
    (("flip_x" ∈ (get_latent_info_dict i1).map Prod.fst) ↔ i1.flip_x = true) ∧
    (("flip_y" ∈ (get_latent_info_dict i1).map Prod.fst) ↔ i1.flip_y = true) ∧
    List.Pairwise (fun a b => strLe a b = true)
      ((sortPairs (get_latent_info_dict i1)).map Prod.fst) := by
  refine ⟨?_, ?_, ?_, ?_⟩
  · intro hdir htup
    unfold latentTuple at htup
    simp only [Prod.mk.injEq] at htup
    obtain ⟨h1, h2, h3, h4, h5, h6, h7, h8, h9, h10, h11⟩ := htup
    have hinfo : get_latent_info_dict i1 = get_latent_info_dict i2 := by
      unfold get_latent_info_dict
      rw [h1, h2, h3, h4, h5, h6, h7, h8, h9, h10, h11]
    unfold get_latent_path
    rw [hdir, hinfo, h1]
  · cases hfx : i1.flip_x <;> cases hfy : i1.flip_y <;>
      simp [get_latent_info_dict, hfx, hfy]
  · cases hfx : i1.flip_x <;> cases hfy : i1.flip_y <;>
      simp [get_latent_info_dict, hfx, hfy]
  · rw [map_fst_sortPairs]
    cases hfx : i1.flip_x <;> cases hfy : i1.flip_y <;>
      simp [get_latent_info_dict, hfx, hfy] <;> decide

/-- Witness for the amended C1: two concrete items sharing a directory and
a tuple (they differ in the natural width, which is not hashed) get the
same path; the flip keys are absent for the un-flipped item; and the keys
come out sorted. -/
theorem c1_latent_path_determinism_witness :
    (itemCacheA.path_dir = itemCacheC.path_dir) ∧
    (latentTuple itemCacheA = latentTuple itemCacheC) ∧
    (get_latent_path (fun s => s) itemCacheA = get_latent_path (fun s => s) itemCacheC) ∧
    (("flip_x" ∈ (get_latent_info_dict itemCacheA).map Prod.fst) ↔ itemCacheA.flip_x = true) := by
  refine ⟨rfl, rfl, ?_, ?_⟩
  · exact (c1_latent_path_determinism (fun s => s) itemCacheA itemCacheC).1 rfl rfl
  · exact (c1_latent_path_determinism (fun s => s) itemCacheA itemCacheC).2.1

/-- C6: after `augment_image`, the stored replay record consists of
exactly the executed steps whose class name is in the spatial whitelist,
in their original order (a sublist), with their realized parameters kept
verbatim; photometric-only steps are excluded. -/
theorem c6_replay_spatial_filter {Img Tensor : Type} (M : ImageModel Img Tensor)
    (pipeline : Img → Rng → Img × Replay × Rng) (item : FileItem) (img : Img)
    (transform : Option (Img → Tensor)) (rng : Rng) :
    ∃ stored : Replay,
      (augment_image M pipeline item img transform rng).1.aug_replay_spatial_transforms =
        some stored ∧
      stored.transforms = (pipeline (M.bgr img) rng).2.1.transforms.filter
        (fun t => decide (lastNameComponent t.classFullname ∈ spatial_transforms)) ∧
      (∀ t : ATransform, t ∈ stored.transforms ↔
        (t ∈ (pipeline (M.bgr img) rng).2.1.transforms ∧
          lastNameComponent t.classFullname ∈ spatial_transforms)) ∧
      stored.transforms.Sublist (pipeline (M.bgr img) rng).2.1.transforms := by
  refine ⟨filter_spatial_transforms (pipeline (M.bgr img) rng).2.1, rfl, rfl, ?_, ?_⟩
  · intro t
    unfold filter_spatial_transforms
    dsimp only
    rw [List.mem_filter]
    simp
  · unfold filter_spatial_transforms
    dsimp only
    exact List.filter_sublist _

/-- C7: replay is deterministic — `augment_spatial_control` draws no new
randomness. Its output tensor does not depend on the oracle state, and the
oracle it returns is exactly the one it received; hence two invocations
with the same record, image and transform produce identical outputs. -/
theorem c7_replay_deterministic {Img Tensor : Type} (M : ImageModel Img Tensor)
    (item : FileItem) (img : Img) (transform : Img → Tensor) (rng1 rng2 : Rng) :
    (augment_spatial_control M item img transform rng1).1 =
      (augment_spatial_control M item img transform rng2).1 ∧
    (augment_spatial_control M item img transform rng1).2 = rng1 := by
  unfold augment_spatial_control
  cases item.aug_replay_spatial_transforms <;> exact ⟨rfl, rfl⟩

/-- C10: loading a mask companion is not frame-preserving on the item's
geometry: when the mask's orientation disagrees with the stored geometry,
`load_mask_image` swaps the item's `scale_to_width`/`scale_to_height`,
`crop_width`/`crop_height` and `crop_x`/`crop_y` in place; otherwise the
item is returned unchanged. -/
theorem c10_mask_swaps_geometry (item : FileItem) (maskW maskH : ℤ) (rng : Rng) :
    (fixSizeCond item maskW maskH →
      ((load_mask_image item maskW maskH rng).2.1.scale_to_width = item.scale_to_height ∧
       (load_mask_image item maskW maskH rng).2.1.scale_to_height = item.scale_to_width ∧
       (load_mask_image item maskW maskH rng).2.1.crop_width = item.crop_height ∧
       (load_mask_image item maskW maskH rng).2.1.crop_height = item.crop_width ∧
       (load_mask_image item maskW maskH rng).2.1.crop_x = item.crop_y ∧
       (load_mask_image item maskW maskH rng).2.1.crop_y = item.crop_x)) ∧
    (¬ fixSizeCond item maskW maskH →
      (load_mask_image item maskW maskH rng).2.1 = item) := by
  constructor
  · intro hcond
    have hfs : (if maskH < maskW ∧ item.scale_to_width < item.scale_to_height then true
        else if maskW < maskH ∧ item.scale_to_height < item.scale_to_width then true
        else false) = true := by
      rcases hcond with ⟨h1, h2⟩ | ⟨h1, h2⟩
      · rw [if_pos ⟨h1, h2⟩]
      · rw [if_neg (by rintro ⟨hh, -⟩; omega), if_pos ⟨h1, h2⟩]
    unfold load_mask_image
    dsimp only
    rw [hfs]
    by_cases hb : item.dataset_config.buckets
    · simp [hb]
    · simp [hb]
  · intro hcond
    have hfs : (if maskH < maskW ∧ item.scale_to_width < item.scale_to_height then true
        else if maskW < maskH ∧ item.scale_to_height < item.scale_to_width then true
        else false) = false := by
      rw [if_neg (fun h => hcond (Or.inl h)), if_neg (fun h => hcond (Or.inr h))]
    unfold load_mask_image
    dsimp only
    rw [hfs]
    by_cases hb : item.dataset_config.buckets
    · simp [hb]
    · simp [hb]

/-- Witness for C10: a 10×5 landscape mask против a portrait 4×8 geometry
triggers the in-place swap. -/
theorem c10_mask_swaps_geometry_witness :
    fixSizeCond itemSwap 10 5 ∧
    ((load_mask_image itemSwap 10 5 rng0).2.1.scale_to_width = itemSwap.scale_to_height ∧
     (load_mask_image itemSwap 10 5 rng0).2.1.scale_to_height = itemSwap.scale_to_width ∧
     (load_mask_image itemSwap 10 5 rng0).2.1.crop_width = itemSwap.crop_height ∧
     (load_mask_image itemSwap 10 5 rng0).2.1.crop_height = itemSwap.crop_width ∧
     (load_mask_image itemSwap 10 5 rng0).2.1.crop_x = itemSwap.crop_y ∧
     (load_mask_image itemSwap 10 5 rng0).2.1.crop_y = itemSwap.crop_x) := by
  have hcond : fixSizeCond itemSwap 10 5 := by
    left
    constructor
    · norm_num
    · norm_num [itemSwap, itemStd]
  exact ⟨hcond, (c10_mask_swaps_geometry itemSwap 10 5 rng0).1 hcond⟩

theorem convertLPrecedesReplay_append (l1 l2 : List MOp)
    (h : convertLPrecedesReplay l2 = true) :
    convertLPrecedesReplay (l1 ++ l2) = true := by
  induction l1 with
  | nil => exact h
  | cons o rest ih =>
    rw [List.cons_append]
    unfold convertLPrecedesReplay
    rw [ih]
    simp

/-- C8 (amended): with a stored replay record and bucketing on, the mask
trace has the shape
`..., blur, convert 'L', resize, crop, convert 'RGB', BGR, replay, RGB,
convert 'L', value-map`: the mask is converted to a single channel already
before the replay call; `augment_spatial_control` converts it to RGB for
the replay and back to a single channel right after; and the delivered
tensor is single-channel. In particular a single-channel conversion does
precede the replay (contrary to the claim), and the final single-channel
conversion follows it. -/
theorem c8_mask_single_channel_order (item : FileItem) (maskW maskH : ℤ) (rng : Rng)
    (rec2 : Replay)
    (hrec : item.aug_replay_spatial_transforms = some rec2)
    (hbuckets : item.dataset_config.buckets = true) :
    ∃ (t : SymTensor) (p : List MOp) (stw sth cx cy cr cb r : ℤ),
      (load_mask_image item maskW maskH rng).1 = some t ∧
      t.ops = p ++ [MOp.blur r] ++ [MOp.convert "L"] ++ [MOp.resize stw sth] ++
        [MOp.cropOp cx cy cr cb] ++ [MOp.convert "RGB"] ++ [MOp.bgrFlip] ++
        [MOp.replayOp rec2] ++ [MOp.rgbFlip] ++ [MOp.convert "L"] ++
        [MOp.valueMap 0 1 item.mask_min_value 1] ∧
      t.channels = 1 ∧
      convertLPrecedesReplay t.ops = true := by
  unfold load_mask_image
  dsimp only
  simp only [hrec, hbuckets, if_true]
  unfold augment_spatial_control
  simp only [hrec]
  dsimp only [symModel]
  refine ⟨_, _, _, _, _, _, _, _, _, rfl, rfl, rfl, ?_⟩
  simp only [List.append_assoc]
  apply convertLPrecedesReplay_append
  simp [convertLPrecedesReplay, hasReplayOp, isConvertL, isReplayOp]

/-- C8 counterexample: for a concrete mask item with a stored replay
record, the produced trace converts to a single channel (`'L'`) before
the replay step runs — the conversion does precede the replay. -/
theorem c8_mask_counterexample :
    (load_mask_image itemMask 8 8 rng0).1 = some tensorC ∧
    convertLPrecedesReplay tensorC.ops = true := by
  constructor
  · unfold load_mask_image
    dsimp only
    simp only [itemMask, itemStd, cfgStd, rng0, Rng.next]
    unfold augment_spatial_control
    simp only [itemMask, itemStd, cfgStd]
    dsimp only [symModel]
    norm_num [tensorC, replayC, pydiv_eq, pyInt]
  · decide

/-- Witness for the amended C8 at the concrete mask item. -/
theorem c8_mask_single_channel_order_witness :
    (itemMask.aug_replay_spatial_transforms = some replayC) ∧
    (itemMask.dataset_config.buckets = true) ∧
    (∃ (t : SymTensor) (p : List MOp) (stw sth cx cy cr cb r : ℤ),
      (load_mask_image itemMask 8 8 rng0).1 = some t ∧
      t.ops = p ++ [MOp.blur r] ++ [MOp.convert "L"] ++ [MOp.resize stw sth] ++
        [MOp.cropOp cx cy cr cb] ++ [MOp.convert "RGB"] ++ [MOp.bgrFlip] ++
        [MOp.replayOp replayC] ++ [MOp.rgbFlip] ++ [MOp.convert "L"] ++
        [MOp.valueMap 0 1 itemMask.mask_min_value 1] ∧
      t.channels = 1 ∧
      convertLPrecedesReplay t.ops = true) :=
  ⟨rfl, rfl, c8_mask_single_channel_order itemMask 8 8 rng0 replayC rfl rfl⟩
